import Mathlib

/-!
# NetcodeManager: a shallow embedding and its verified properties

Source: `src/NetcodeManager.cpp`, `src/NetcodeManager.h`.

Conventions of the embedding

* `std::string` is a `List Char` (abbreviation `Str`).
* `size_t` / `uintptr_t` are natural numbers below `2 ^ 64`; every C++ operation that
  can wrap is written with an explicit `% SIZE_MOD`.
* A C++ exception or a dereference of a null handle is a value of `Fault`; fallible code
  returns `Except Fault _`.
* The collaborators of the class (`cvarManager`, `gameWrapper`, the message handler) are
  observed through the list of `Event`s an operation emits, in program order, and read
  through the record `Env`.
-/

namespace NetcodeManager

/-! ## Strings and machine integers -/

/-- The embedding of `std::string`. -/
abbrev Str := List Char

/-- Number of values of `size_t` and of `uintptr_t` (64-bit target). -/
def SIZE_MOD : Nat := 18446744073709551616

/-- The constant `std::string::npos`, that is `(size_t)-1`. -/
def npos : Nat := SIZE_MOD - 1

/-- The constant `INT_MAX` converted to `size_t`. -/
def INT_MAX : Nat := 2147483647

/-- Ways in which the C++ code can leave its normal control flow. -/
inductive Fault where
  | out_of_range
  | null_deref
  deriving DecidableEq, Repr

/-- Equality of results is decidable, so that closed instances can be evaluated. -/
instance instDecidableEqExceptFault {α : Type} [DecidableEq α] : DecidableEq (Except Fault α)
  | .ok a, .ok b =>
    if h : a = b then isTrue (by rw [h]) else isFalse (fun h2 => h (Except.ok.inj h2))
  | .error e, .error f =>
    if h : e = f then isTrue (by rw [h]) else isFalse (fun h2 => h (Except.error.inj h2))
  | .ok _, .error _ => isFalse (fun h => Except.noConfusion h)
  | .error _, .ok _ => isFalse (fun h => Except.noConfusion h)

/-- Unsigned addition `a + b` on `size_t`. -/
def addSz (a b : Nat) : Nat := (a + b) % SIZE_MOD

/-- Unsigned subtraction `a - b` on `size_t`. -/
def subSz (a b : Nat) : Nat := (a % SIZE_MOD + SIZE_MOD - b % SIZE_MOD) % SIZE_MOD

/-- Index of the first occurrence of `c` in a list, if any. -/
def firstIndex (c : Char) : List Char → Option Nat
  | [] => none
  | x :: xs => if x = c then some 0 else (firstIndex c xs).map (fun i => i + 1)

/-- The call `s.find_first_of(c, pos)`: the position of the first `c` at or after `pos`,
`npos` when there is none. -/
def find_first_of (s : Str) (c : Char) (pos : Nat) : Nat :=
  match firstIndex c (s.drop pos) with
  | some i => pos + i
  | none => npos

/-- The call `s.at(pos)`: throws `std::out_of_range` when `pos >= s.size()`. -/
def at_ (s : Str) (pos : Nat) : Except Fault Char :=
  match s.get? pos with
  | some c => .ok c
  | none => .error .out_of_range

/-- The call `s.substr(pos, n)`: throws `std::out_of_range` when `pos > s.size()`,
otherwise the at most `n` characters from `pos` on. -/
def substr (s : Str) (pos n : Nat) : Except Fault Str :=
  if pos > s.length then .error .out_of_range else .ok ((s.drop pos).take n)

/-! ## Sender identity -/

/-- The predicate `isspace` of the classic "C" locale. -/
def isSpaceC (c : Char) : Bool :=
  c = ' ' || c = '\t' || c = '\n' || c = '\x0b' || c = '\x0c' || c = '\r'

/-- Value of a decimal digit character. -/
def digitVal (c : Char) : Nat := c.toNat - '0'.toNat

/-- Value of a run of decimal digits, most significant first. -/
def digitsVal (ds : List Char) : Nat := ds.foldl (fun acc d => 10 * acc + digitVal d) 0

/-- Conversion of the accumulated field `sign? digits` to `uintptr_t` with the rules of
`strtoull` (stage 3 of `std::num_get::get`): no digit gives 0, a magnitude that does not
fit gives the largest value, a leading `-` negates in the unsigned type. -/
def convertField (negative : Bool) (ds : List Char) : Nat :=
  if ds = [] then 0
  else if digitsVal ds ≥ SIZE_MOD then SIZE_MOD - 1
  else if negative then (SIZE_MOD - digitsVal ds) % SIZE_MOD
  else digitsVal ds

/-- The extraction `std::stringstream(s) >> PriAddress` into a `uintptr_t` that holds 0:
leading white space is skipped, an optional sign and the following decimal digits are
read, and the field is converted; if the stream ends before any field starts the variable
keeps its value 0. -/
def streamExtract (s : Str) : Nat :=
  match s.dropWhile isSpaceC with
  | [] => 0
  | '-' :: rest => convertField true (rest.takeWhile Char.isDigit)
  | '+' :: rest => convertField false (rest.takeWhile Char.isDigit)
  | rest => convertField false (rest.takeWhile Char.isDigit)

/-- The embedding of `NetcodeManager::GetSenderPri`; a `PriWrapper` is represented by the
address it wraps, the null identity by 0. -/
def GetSenderPri (InChatterPriAddressString : Str) : Nat :=
  if InChatterPriAddressString ≠ [] ∧ InChatterPriAddressString ≠ ['0'] then
    streamExtract InChatterPriAddressString
  else 0

/-! ## Message parsing -/

/-- The embedding of `struct ParsedMessageData`. -/
structure ParsedMessageData where
  PluginClassName : Str
  Sender : Nat
  MessageContent : Str
  deriving DecidableEq, Repr

/-- The embedding of `NetcodeManager::GetContentFromBrackets`. The reference parameter
`OutEndPoint` is passed in and its final value is returned next to the result string. -/
def GetContentFromBrackets (IncomingMessage : Str) (InStartPoint OutEndPoint : Nat) :
    Except Fault (Str × Nat) :=
  if IncomingMessage ≠ [] ∧ InStartPoint < IncomingMessage.length then do
    let c ← at_ IncomingMessage InStartPoint
    if c = '[' then
      let OutEndPoint := find_first_of IncomingMessage ']' InStartPoint
      if OutEndPoint ≠ npos then do
        let Output ← substr IncomingMessage (addSz InStartPoint 1)
          (subSz (subSz OutEndPoint InStartPoint) 1)
        pure (Output, OutEndPoint)
      else pure ([], OutEndPoint)
    else pure ([], OutEndPoint)
  else pure ([], OutEndPoint)

/-- The embedding of `NetcodeManager::ParseIncomingMessage`. -/
def ParseIncomingMessage (IncomingMessage : Str) : Except Fault ParsedMessageData := do
  let StartPoint := 0
  let EndPoint := 0
  let (PluginClassName, EndPoint) ← GetContentFromBrackets IncomingMessage StartPoint EndPoint
  let StartPoint := addSz EndPoint 1
  let (senderField, EndPoint) ← GetContentFromBrackets IncomingMessage StartPoint EndPoint
  let Sender := GetSenderPri senderField
  let StartPoint := addSz EndPoint 1
  let MessageContent ← substr IncomingMessage StartPoint INT_MAX
  pure { PluginClassName := PluginClassName, Sender := Sender, MessageContent := MessageContent }

/-! ## Collaborators, state and observable events -/

/-- The macro `CVAR_MESSAGE_OUT`. -/
def CVAR_MESSAGE_OUT : Str := "NETCODE_Message_Out".toList

/-- The macro `CVAR_MESSAGE_IN`. -/
def CVAR_MESSAGE_IN : Str := "NETCODE_Message_In".toList

/-- The macro `CVAR_LOG_LEVEL`. -/
def CVAR_LOG_LEVEL : Str := "NETCODE_Log_Level".toList

/-- Expansion of `__FUNCTION__` inside `NetcodeManager::SendNewMessage`. -/
def FUNCTION_SendNewMessage : Str := "NetcodeManager::SendNewMessage".toList

/-- Expansion of `__FUNCTION__` inside `NetcodeManager::NetcodeLoadLoop`. -/
def FUNCTION_NetcodeLoadLoop : Str := "NetcodeManager::NetcodeLoadLoop".toList

/-- Expansion of `__FUNCTION__` inside `NetcodeManager::ReceiveMessage`. -/
def FUNCTION_ReceiveMessage : Str := "NetcodeManager::ReceiveMessage".toList

/-- A call the class makes on one of its collaborators, with its arguments. -/
inductive Event where
  /-- Call `cvarManager->log(line)` -/
  | log (line : Str)
  /-- Call `cvarManager->executeCommand(command, log)` -/
  | executeCommand (command : Str) (log : Bool)
  /-- Call `gameWrapper->SetTimeout(std::bind(&NetcodeManager::NetcodeLoadLoop, this, false), delay)` -/
  | SetTimeout (delay : Nat)
  /-- Call `gameWrapper->GetPluginManager()`, the query of the loaded-plugin registry -/
  | GetPluginManager
  /-- Call `cvarManager->getCvar(cvar).setValue(value)` -/
  | setValue (cvar : Str) (value : Str)
  /-- Call `cvarManager->getCvar(cvar).bindTo(CvarLogLevel)` -/
  | bindTo (cvar : Str)
  /-- Call `cvarManager->getCvar(cvar).addOnValueChanged(std::bind(&NetcodeManager::ReceiveMessage, this))` -/
  | addOnValueChanged (cvar : Str)
  /-- Call `MessageHandlingFunction(Message, Sender)` -/
  | MessageHandlingFunction (Message : Str) (Sender : Nat)
  deriving DecidableEq, Repr

/-- What the collaborators answer when the class reads from them during one call. -/
structure Env where
  /-- Value of `clock()` -/
  clock : Nat
  /-- Value of `gameWrapper->GetPluginManager().memory_address` -/
  pluginManagerAddress : Nat
  /-- Class names `_details->className` of `*PluginManager.GetLoadedPlugins()` -/
  loadedPlugins : List Str
  /-- Value of `std::filesystem::exists(GetBakkesModPath() / "plugins" / "NetcodePlugin.dll")` -/
  pluginFileExists : Bool
  /-- Value of `cvarManager->getCvar(name).IsNull()` -/
  cvarIsNull : Str → Bool
  /-- Value of `cvarManager->getCvar(name).getCVarName()` -/
  getCVarName : Str → Str
  /-- Value of `cvarManager->getCvar(name).getStringValue()` -/
  getStringValue : Str → Str
  /-- Value held by the `int` after `bindTo`, given the value it was created with -/
  boundLogLevel : Int → Int
  /-- Value of `Sender.GetPlayerName()` for a non-null sender: `none` is a null `UnrealStringWrapper` -/
  GetPlayerName : Nat → Option Str
  /-- Value of `gameWrapper->IsInReplay()` -/
  IsInReplay : Bool
  /-- Value of `gameWrapper->IsInOnlineGame()` -/
  IsInOnlineGame : Bool
  /-- Value of `gameWrapper->GetGameEventAsReplay().memory_address` -/
  GetGameEventAsReplay : Nat
  /-- Value of `gameWrapper->GetOnlineGame().memory_address` -/
  GetOnlineGame : Nat
  /-- Value of `gameWrapper->GetGameEventAsServer().memory_address` -/
  GetGameEventAsServer : Nat
  /-- Value of `ServerWrapper(address).GetPlaylist().memory_address` -/
  GetPlaylist : Nat → Nat
  /-- Value of `GameSettingPlaylistWrapper(address).IsLanMatch()` -/
  IsLanMatch : Nat → Bool

/-- The mutable members of a `NetcodeManager` together with the function-local static
`LoadAttempts` of `NetcodeLoadLoop`. `CvarLogLevel` is `none` for a null `shared_ptr`,
otherwise the `int` it points to. -/
structure Manager where
  className : Str
  bIsGood : Bool
  CvarLogLevel : Option Int
  LoadAttempts : Int
  deriving DecidableEq, Repr

/-- Result of running one member function: the state it leaves, the collaborator calls it
made in order, and the fault that ended it early, if any. -/
structure Run where
  state : Manager
  events : List Event
  fault : Option Fault
  deriving DecidableEq, Repr

/-- The macros `NETLOGA`, `NETLOGB`, `NETLOGC` with `threshold` 0, 1, 2 and `tag`
`A`, `B`, `C`: dereference `CvarLogLevel` and log the line when the level is above the
threshold. -/
def NETLOG (tag : Char) (threshold : Int) (env : Env) (st : Manager) (x : Str) :
    Except Fault (List Event) :=
  match st.CvarLogLevel with
  | none => .error .null_deref
  | some level =>
    if level > threshold then
      .ok [Event.log ("(".toList ++ [tag] ++ ": ".toList ++ (toString env.clock).toList
        ++ ")   ".toList ++ x)]
    else .ok []

/-- The macro `NETLOGA`. -/
def NETLOGA (env : Env) (st : Manager) (x : Str) : Except Fault (List Event) :=
  NETLOG 'A' 0 env st x

/-- The macro `NETLOGC`. -/
def NETLOGC (env : Env) (st : Manager) (x : Str) : Except Fault (List Event) :=
  NETLOG 'C' 2 env st x

/-- The embedding of `NetcodeManager::CheckIfGood`: the returned flag and the log call. -/
def CheckIfGood (st : Manager) (InFunctionName : Str) : Bool × List Event :=
  if !st.bIsGood then
    (false, [Event.log ("NetcodeManager function (".toList ++ InFunctionName
      ++ ") failed. NetcodePlugin is not loaded.".toList)])
  else (true, [])

/-! ## Sending -/

/-- The string built on line 24 of `NetcodeManager.cpp`:
`std::string("[") + PluginExports.className + "]" + InMessage`. -/
def OutMessage (className InMessage : Str) : Str :=
  "[".toList ++ className ++ "]".toList ++ InMessage

/-- The embedding of `NetcodeManager::SendNewMessage`. -/
def SendNewMessage (env : Env) (st : Manager) (InMessage : Str) : Run :=
  let good := CheckIfGood st FUNCTION_SendNewMessage
  if !good.1 then { state := st, events := good.2, fault := none }
  else
    let OutMessage := OutMessage st.className InMessage
    match NETLOGC env st ("Sending NetcodeManager message: ".toList ++ OutMessage) with
    | .error f => { state := st, events := good.2, fault := some f }
    | .ok logged =>
      { state := st
        events := good.2 ++ logged ++ [Event.setValue CVAR_MESSAGE_OUT OutMessage]
        fault := none }

/-! ## Loading of NetcodePlugin -/

/-- The embedding of `NetcodeManager::DoesNetcodePluginExist`. -/
def DoesNetcodePluginExist (env : Env) : Bool := env.pluginFileExists

/-- The embedding of `NetcodeManager::IsNetcodeLoaded`: the answer and the registry query. -/
def IsNetcodeLoaded (env : Env) : Bool × List Event :=
  if env.pluginManagerAddress = 0 then (false, [Event.GetPluginManager])
  else (env.loadedPlugins.any (fun ThisPlugin => ThisPlugin = "NetcodePlugin".toList),
    [Event.GetPluginManager])

/-- The embedding of `NetcodeManager::OnSuccessfulLoadDetection`. -/
def OnSuccessfulLoadDetection (env : Env) (st : Manager) : Run :=
  if env.cvarIsNull CVAR_LOG_LEVEL then
    { state := st
      events := [Event.log ("NetcodePlugin is loaded, but could not find cvar ".toList
        ++ env.getCVarName CVAR_LOG_LEVEL)]
      fault := none }
  else
    let st := { st with CvarLogLevel := some (env.boundLogLevel 1) }
    let bound := [Event.bindTo CVAR_LOG_LEVEL]
    if env.cvarIsNull CVAR_MESSAGE_IN then
      match NETLOGA env st ("NetcodePlugin is loaded, but could not find cvar ".toList
          ++ env.getCVarName CVAR_MESSAGE_IN) with
      | .error f => { state := st, events := bound, fault := some f }
      | .ok logged => { state := st, events := bound ++ logged, fault := none }
    else if env.cvarIsNull CVAR_MESSAGE_OUT then
      match NETLOGA env st ("NetcodePlugin is loaded, but could not find cvar ".toList
          ++ env.getCVarName CVAR_MESSAGE_OUT) with
      | .error f => { state := st, events := bound, fault := some f }
      | .ok logged => { state := st, events := bound ++ logged, fault := none }
    else
      let subscribed := bound ++ [Event.addOnValueChanged CVAR_MESSAGE_IN]
      let st := { st with bIsGood := true }
      match NETLOGA env st ("NetcodeManager has successfully detected that NetcodePlugin is loaded. Ready to go.".toList) with
      | .error f => { state := st, events := subscribed, fault := some f }
      | .ok logged => { state := st, events := subscribed ++ logged, fault := none }

/-- The embedding of `NetcodeManager::NetcodeLoadLoop`. -/
def NetcodeLoadLoop (env : Env) (st : Manager) (bResetAttempts : Bool) : Run :=
  let good := CheckIfGood st FUNCTION_NetcodeLoadLoop
  if good.1 then { state := st, events := good.2, fault := none }
  else
    let LoadAttempts := if bResetAttempts then 0 else st.LoadAttempts
    let LoadAttempts := LoadAttempts + 1
    let st := { st with LoadAttempts := LoadAttempts }
    if LoadAttempts ≥ 20 then { state := st, events := good.2, fault := none }
    else
      let loaded := IsNetcodeLoaded env
      if loaded.1 then
        let r := OnSuccessfulLoadDetection env st
        { state := r.state, events := good.2 ++ loaded.2 ++ r.events, fault := r.fault }
      else
        let command :=
          if DoesNetcodePluginExist env then
            Event.executeCommand "plugin load NetcodePlugin".toList false
          else Event.executeCommand "bpm_install 166".toList false
        { state := st
          events := good.2 ++ loaded.2 ++ [command, Event.SetTimeout 2]
          fault := none }

/-- The embedding of the constructor: `bIsGood = false; NetcodeLoadLoop(true);`. The
static `LoadAttempts` has the value `attempts` left by earlier instances (0 at first). -/
def construct (env : Env) (className : Str) (attempts : Int) : Run :=
  NetcodeLoadLoop env
    { className := className, bIsGood := false, CvarLogLevel := none, LoadAttempts := attempts }
    true

/-- Test whether an event is a scheduled retry. -/
def Event.isSetTimeout : Event → Bool
  | .SetTimeout _ => true
  | _ => false

/-- Test whether an event is a query of the loaded-plugin registry. -/
def Event.isProbe : Event → Bool
  | .GetPluginManager => true
  | _ => false

/-- Test whether an event is a write to a shared variable. -/
def Event.isSetValue : Event → Bool
  | .setValue _ _ => true
  | _ => false

/-- Test whether an event is a call of the registered message handler. -/
def Event.isHandlerCall : Event → Bool
  | .MessageHandlingFunction _ _ => true
  | _ => false

/-- Test whether an event is a log line. -/
def Event.isLog : Event → Bool
  | .log _ => true
  | _ => false

/-- The scheduler: calls `NetcodeLoadLoop(bResetAttempts)` and, as long as an invocation
scheduled a retry, fires it as `NetcodeLoadLoop(false)`. The collaborators may answer
differently at each invocation: `envs i` is what they answer at invocation number `i`.
The result lists the invocations in order; `fuel` bounds their number. -/
def fireRetries (envs : Nat → Env) : Nat → Nat → Bool → Manager → List Run
  | 0, _, _, _ => []
  | fuel + 1, i, bResetAttempts, st =>
    let r := NetcodeLoadLoop (envs i) st bResetAttempts
    if r.events.any Event.isSetTimeout then r :: fireRetries envs fuel (i + 1) false r.state
    else [r]

/-! ## Authority -/

/-- The embedding of `enum class EAuthority`. -/
inductive EAuthority where
  | None
  | Client
  | Host
  deriving DecidableEq, Repr

/-- The embedding of `NetcodeManager::GetCurrentGameState`: the address wrapped by the
returned `ServerWrapper`. -/
def GetCurrentGameState (env : Env) : Nat :=
  if env.IsInReplay then env.GetGameEventAsReplay
  else if env.IsInOnlineGame then env.GetOnlineGame
  else env.GetGameEventAsServer

/-- The embedding of `NetcodeManager::GetMatchAuthority`; `Server.IsNull()` is the test
that the wrapped address is 0. -/
def GetMatchAuthority (env : Env) : EAuthority :=
  let Server := GetCurrentGameState env
  if Server ≠ 0 then
    let GSPW := env.GetPlaylist Server
    if GSPW ≠ 0 ∧ env.IsLanMatch GSPW = true then
      if env.IsInOnlineGame then EAuthority.Client else EAuthority.Host
    else EAuthority.None
  else EAuthority.None

/-! ## Receiving -/

/-- The embedding of `NetcodeManager::LogMessageData`. -/
def LogMessageData (env : Env) (st : Manager) (InMessageData : ParsedMessageData) :
    Except Fault (List Event) :=
  let Output := "Parsed message:\n".toList
  let Output := Output ++ ("PluginClassName: ".toList ++ InMessageData.PluginClassName ++ ['\n'])
  let Output := Output ++ "Sender: ".toList
  let OriginalChatterName :=
    if InMessageData.Sender ≠ 0 then
      match env.GetPlayerName InMessageData.Sender with
      | some name => name
      | none => "NULL".toList
    else "NULL".toList
  let Output := Output ++ (OriginalChatterName ++ ['\n'])
  let Output := Output ++ ("MessageContent: ".toList ++ InMessageData.MessageContent)
  NETLOGC env st Output

/-- The embedding of `NetcodeManager::ReceiveMessage`. -/
def ReceiveMessage (env : Env) (st : Manager) : Run :=
  let good := CheckIfGood st FUNCTION_ReceiveMessage
  if !good.1 then { state := st, events := good.2, fault := none }
  else
    let IncomingMessage := env.getStringValue CVAR_MESSAGE_IN
    match NETLOGC env st ("Receiving message: ".toList ++ IncomingMessage) with
    | .error f => { state := st, events := good.2, fault := some f }
    | .ok logged =>
      match ParseIncomingMessage IncomingMessage with
      | .error f => { state := st, events := good.2 ++ logged, fault := some f }
      | .ok MessageData =>
        if MessageData.PluginClassName ≠ st.className then
          { state := st, events := good.2 ++ logged, fault := none }
        else
          match LogMessageData env st MessageData with
          | .error f => { state := st, events := good.2 ++ logged, fault := some f }
          | .ok logged2 =>
            { state := st
              events := good.2 ++ logged ++ logged2 ++
                [Event.MessageHandlingFunction MessageData.MessageContent MessageData.Sender]
              fault := none }

/-! ## Reachable states -/

/-- The states an instance can be in: the one its constructor leaves, and those obtained
from it by the public and callback entry points (`SendNewMessage`, `ReceiveMessage`, a
fired retry `NetcodeLoadLoop(false)`) and by the bound cvar rewriting the log level. -/
inductive Reachable : Manager → Prop where
  | construct (env : Env) (className : Str) (attempts : Int) :
      Reachable (construct env className attempts).state
  | SendNewMessage (env : Env) (st : Manager) (InMessage : Str) :
      Reachable st → Reachable (SendNewMessage env st InMessage).state
  | ReceiveMessage (env : Env) (st : Manager) :
      Reachable st → Reachable (ReceiveMessage env st).state
  | NetcodeLoadLoop (env : Env) (st : Manager) :
      Reachable st → Reachable (NetcodeLoadLoop env st false).state
  | logLevelChanged (st : Manager) (level : Int) :
      Reachable st → st.CvarLogLevel ≠ none →
      Reachable { st with CvarLogLevel := some level }

/-- The calls of the registered message handler made during a run. -/
def Run.handlerCalls (r : Run) : List Event := r.events.filter Event.isHandlerCall

/-- The writes to shared variables made during a run. -/
def Run.writes (r : Run) : List Event := r.events.filter Event.isSetValue

/-- The log lines emitted during a run. -/
def Run.logs (r : Run) : List Event := r.events.filter Event.isLog

/-- Number of registry queries made during a run. -/
def Run.probes (r : Run) : Nat := r.events.countP Event.isProbe

/-- Number of retries scheduled during a run. -/
def Run.retries (r : Run) : Nat := r.events.countP Event.isSetTimeout

/-- The incoming wire format `"[" + T + "][" + S + "]" + B`. -/
def IncomingFormat (T S B : Str) : Str :=
  "[".toList ++ T ++ "][".toList ++ S ++ "]".toList ++ B

/-- The invariant linking readiness to the log-level handle. -/
def LogLevelAllocated (st : Manager) : Prop := st.bIsGood = true → st.CvarLogLevel ≠ none

/-! ## Concrete collaborators used to instantiate the results -/

/-- Collaborators for which NetcodePlugin is loaded and exposes its three cvars; the
incoming cvar holds `incoming`. -/
def loadedEnv (incoming : Str) : Env where
  clock := 0
  pluginManagerAddress := 1
  loadedPlugins := ["NetcodePlugin".toList]
  pluginFileExists := true
  cvarIsNull := fun _ => false
  getCVarName := fun name => name
  getStringValue := fun name => if name = CVAR_MESSAGE_IN then incoming else []
  boundLogLevel := fun level => level
  GetPlayerName := fun _ => none
  IsInReplay := false
  IsInOnlineGame := false
  GetGameEventAsReplay := 0
  GetOnlineGame := 0
  GetGameEventAsServer := 0
  GetPlaylist := fun _ => 0
  IsLanMatch := fun _ => false

/-- Collaborators for which NetcodePlugin is neither loaded nor present on disk. -/
def absentEnv : Env where
  clock := 0
  pluginManagerAddress := 1
  loadedPlugins := []
  pluginFileExists := false
  cvarIsNull := fun _ => true
  getCVarName := fun _ => []
  getStringValue := fun _ => []
  boundLogLevel := fun level => level
  GetPlayerName := fun _ => none
  IsInReplay := false
  IsInOnlineGame := false
  GetGameEventAsReplay := 0
  GetOnlineGame := 0
  GetGameEventAsServer := 0
  GetPlaylist := fun _ => 0
  IsLanMatch := fun _ => false

/-- Collaborators during a LAN match: the generic server view and the online-game view
are the same session at address 1000, whose playlist at address 2000 is a LAN playlist;
`online` tells whether the local process joined the match as a client. -/
def lanEnv (online : Bool) : Env where
  clock := 0
  pluginManagerAddress := 1
  loadedPlugins := ["NetcodePlugin".toList]
  pluginFileExists := true
  cvarIsNull := fun _ => false
  getCVarName := fun name => name
  getStringValue := fun _ => []
  boundLogLevel := fun level => level
  GetPlayerName := fun _ => none
  IsInReplay := false
  IsInOnlineGame := online
  GetGameEventAsReplay := 0
  GetOnlineGame := 1000
  GetGameEventAsServer := 1000
  GetPlaylist := fun address => if address = 1000 then 2000 else 0
  IsLanMatch := fun address => address = 2000

/-- The state of a freshly constructed instance before its constructor body runs the
load loop, for the plugin class `className`. -/
def freshManager (className : Str) : Manager :=
  { className := className, bIsGood := false, CvarLogLevel := none, LoadAttempts := 0 }

/-- The Ready state reached by constructing an instance for the plugin class `className`
while NetcodePlugin is loaded. -/
def readyManager (className : Str) : Manager :=
  (construct (loadedEnv []) className 0).state

/-! ## Sequences of operations -/

/-- Test whether an event is a console command. -/
def Event.isCommand : Event → Bool
  | .executeCommand _ _ => true
  | _ => false

/-- Test whether an event registers a change subscription. -/
def Event.isSubscribe : Event → Bool
  | .addOnValueChanged _ => true
  | _ => false

/-- Test whether an event binds a cvar to the log-level handle. -/
def Event.isBindTo : Event → Bool
  | .bindTo _ => true
  | _ => false

/-- The console commands issued during a run. -/
def Run.commands (r : Run) : List Event := r.events.filter Event.isCommand

/-- The change subscriptions registered during a run. -/
def Run.subscriptions (r : Run) : List Event := r.events.filter Event.isSubscribe

/-- The bindings of the log-level handle made during a run. -/
def Run.bindings (r : Run) : List Event := r.events.filter Event.isBindTo

/-- One step in the life of an instance after its construction: a call of a member
function with the answers of the collaborators during that call, or the bound cvar
rewriting the log level. -/
inductive Op where
  | send (env : Env) (InMessage : Str)
  | receive (env : Env)
  | loadLoop (env : Env) (bResetAttempts : Bool)
  | logLevelChanged (level : Int)

/-- The run of one step from the state `st`. A change of the bound cvar rewrites the `int`
behind the handle when the handle is allocated and calls no collaborator. -/
def Op.run (st : Manager) : Op → Run
  | .send env InMessage => SendNewMessage env st InMessage
  | .receive env => ReceiveMessage env st
  | .loadLoop env bResetAttempts => NetcodeLoadLoop env st bResetAttempts
  | .logLevelChanged level =>
    { state :=
        match st.CvarLogLevel with
        | none => st
        | some _ => { st with CvarLogLevel := some level }
      events := []
      fault := none }

/-- The runs of a sequence of steps, each started in the state the previous one left. -/
def runOps (st : Manager) : List Op → List Run
  | [] => []
  | op :: ops => op.run st :: runOps (op.run st).state ops

/-- The runs in the life of an instance: its construction, then a sequence of steps. -/
def history (env : Env) (className : Str) (attempts : Int) (ops : List Op) : List Run :=
  construct env className attempts :: runOps (construct env className attempts).state ops

/-- Collaborators for which NetcodePlugin is loaded but does not expose the cvar `missing`;
binding the log-level cvar leaves `level` in the handle. -/
def missingCvarEnv (missing : Str) (level : Int) : Env where
  clock := 0
  pluginManagerAddress := 1
  loadedPlugins := ["NetcodePlugin".toList]
  pluginFileExists := true
  cvarIsNull := fun name => name = missing
  getCVarName := fun name => name
  getStringValue := fun _ => []
  boundLogLevel := fun _ => level
  GetPlayerName := fun _ => none
  IsInReplay := false
  IsInOnlineGame := false
  GetGameEventAsReplay := 0
  GetOnlineGame := 0
  GetGameEventAsServer := 0
  GetPlaylist := fun _ => 0
  IsLanMatch := fun _ => false

/-- Collaborators for which NetcodePlugin is not loaded but its file is on disk. -/
def unloadedEnv : Env where
  clock := 0
  pluginManagerAddress := 1
  loadedPlugins := ["OtherPlugin".toList]
  pluginFileExists := true
  cvarIsNull := fun _ => true
  getCVarName := fun _ => []
  getStringValue := fun _ => []
  boundLogLevel := fun level => level
  GetPlayerName := fun _ => none
  IsInReplay := false
  IsInOnlineGame := false
  GetGameEventAsReplay := 0
  GetOnlineGame := 0
  GetGameEventAsServer := 0
  GetPlaylist := fun _ => 0
  IsLanMatch := fun _ => false

/-! ## Lemmas on string scanning -/

theorem firstIndex_append_of_not_mem (c : Char) (F rest : List Char) (h : c ∉ F) :
    firstIndex c (F ++ c :: rest) = some F.length := by
  induction F with
  | nil => simp [firstIndex]
  | cons x xs ih =>
    have hx : x ≠ c := fun e => h (by simp [e])
    have hxs : c ∉ xs := fun e => h (by simp [e])
    simp [firstIndex, hx, ih hxs]

theorem firstIndex_eq_none_of_not_mem (c : Char) (s : List Char) (h : c ∉ s) :
    firstIndex c s = none := by
  induction s with
  | nil => simp [firstIndex]
  | cons x xs ih =>
    have hx : x ≠ c := fun e => h (by simp [e])
    have hxs : c ∉ xs := fun e => h (by simp [e])
    simp [firstIndex, hx, ih hxs]

theorem at_append_cons (pre : List Char) (c : Char) (cs : List Char) :
    at_ (pre ++ c :: cs) pre.length = .ok c := by
  have h : (pre ++ c :: cs).get? pre.length = some c := by
    induction pre with
    | nil => rfl
    | cons x xs ih => simpa using ih
  unfold at_
  rw [h]

/-- A bracketed field that starts at the cursor is returned, and the end cursor is left on
its closing bracket. -/
theorem GetContentFromBrackets_field (pre F rest : List Char) (e : Nat)
    (hF : ']' ∉ F) (hlen : (pre ++ '[' :: (F ++ ']' :: rest)).length < npos) :
    GetContentFromBrackets (pre ++ '[' :: (F ++ ']' :: rest)) pre.length e
      = .ok (F, pre.length + F.length + 1) := by
  have hfind : find_first_of (pre ++ '[' :: (F ++ ']' :: rest)) ']' pre.length
      = pre.length + F.length + 1 := by
    have h2 : ']' ∉ '[' :: F := by simp [hF]
    have := firstIndex_append_of_not_mem ']' ('[' :: F) rest h2
    simp only [List.cons_append] at this
    simp [find_first_of, this]
    omega
  have hat : at_ (pre ++ '[' :: (F ++ ']' :: rest)) pre.length = .ok '[' :=
    at_append_cons pre '[' (F ++ ']' :: rest)
  simp only [List.length_append, List.length_cons, npos, SIZE_MOD] at hlen
  unfold GetContentFromBrackets
  rw [hat, hfind]
  have h1 : addSz pre.length 1 = pre.length + 1 := by
    unfold addSz SIZE_MOD; omega
  have h2 : subSz (subSz (pre.length + F.length + 1) pre.length) 1 = F.length := by
    unfold subSz SIZE_MOD; omega
  have h3 : pre.length + F.length + 1 ≠ npos := by
    unfold npos SIZE_MOD; omega
  have hdrop : List.drop (pre.length + 1) (pre ++ '[' :: (F ++ ']' :: rest))
      = F ++ ']' :: rest := by
    rw [show pre ++ '[' :: (F ++ ']' :: rest) = (pre ++ ['[']) ++ (F ++ ']' :: rest) by simp]
    rw [List.drop_append_of_le_length (by simp)]
    simp
  simp [h1, h2, h3, substr, hdrop, bind, Except.bind, pure, Except.pure]

/-- When the cursor is at the end of the message or on a character other than `[`, the
field is empty and the end cursor keeps its value. -/
theorem GetContentFromBrackets_no_open (pre rest : List Char) (e : Nat)
    (h : rest.head? ≠ some '[') :
    GetContentFromBrackets (pre ++ rest) pre.length e = .ok ([], e) := by
  unfold GetContentFromBrackets
  cases rest with
  | nil => simp [pure, Except.pure]
  | cons c cs =>
    have hc : c ≠ '[' := by simpa using h
    rw [at_append_cons]
    simp [hc, bind, Except.bind, pure, Except.pure]

theorem substr_drop_append (pre B : List Char) (n : Nat) :
    substr (pre ++ B) pre.length n = .ok (B.take n) := by
  simp [substr]

/-- Parsing a message with one bracketed field followed by a body that does not open a
second field. -/
theorem ParseIncomingMessage_one_field (T B : Str) (hT : ']' ∉ T)
    (hB : B.head? ≠ some '[') (hlen : (OutMessage T B).length < npos) :
    ParseIncomingMessage (OutMessage T B)
      = .ok { PluginClassName := T, Sender := 0, MessageContent := B.take INT_MAX } := by
  have hmsg : OutMessage T B = [] ++ '[' :: (T ++ ']' :: B) := by simp [OutMessage]
  have hmsg2 : OutMessage T B = ('[' :: (T ++ [']'])) ++ B := by simp [OutMessage]
  have h1 := GetContentFromBrackets_field [] T B 0 hT (by rw [← hmsg]; exact hlen)
  rw [← hmsg] at h1
  have hl : (OutMessage T B).length = T.length + B.length + 2 := by
    simp [OutMessage]; omega
  have hcur : addSz (T.length + 1) 1 = ('[' :: (T ++ [']'])).length := by
    simp only [npos, SIZE_MOD] at hlen
    simp [addSz, SIZE_MOD]; omega
  have h2 : GetContentFromBrackets (OutMessage T B) (addSz (T.length + 1) 1) (T.length + 1)
      = .ok ([], T.length + 1) := by
    rw [hcur, hmsg2]
    exact GetContentFromBrackets_no_open _ B _ hB
  have h3 : substr (OutMessage T B) (addSz (T.length + 1) 1) INT_MAX = .ok (B.take INT_MAX) := by
    rw [hcur, hmsg2]
    exact substr_drop_append _ B _
  unfold ParseIncomingMessage
  simp only [List.length_nil, Nat.zero_add] at h1
  simp [h1, h2, h3, GetSenderPri, bind, Except.bind, pure, Except.pure]

/-- Parsing a message in the incoming wire format. -/
theorem ParseIncomingMessage_two_fields (T S B : Str) (hT : ']' ∉ T) (hS : ']' ∉ S)
    (hlen : (IncomingFormat T S B).length < npos) :
    ParseIncomingMessage (IncomingFormat T S B)
      = .ok { PluginClassName := T, Sender := GetSenderPri S,
              MessageContent := B.take INT_MAX } := by
  have hmsg : IncomingFormat T S B = [] ++ '[' :: (T ++ ']' :: ('[' :: (S ++ ']' :: B))) := by
    simp [IncomingFormat]
  have hmsg2 : IncomingFormat T S B = ('[' :: (T ++ [']'])) ++ '[' :: (S ++ ']' :: B) := by
    simp [IncomingFormat]
  have hmsg3 : IncomingFormat T S B = ('[' :: (T ++ (']' :: '[' :: (S ++ [']'])))) ++ B := by
    simp [IncomingFormat]
  have hl : (IncomingFormat T S B).length = T.length + S.length + B.length + 4 := by
    simp [IncomingFormat]; omega
  simp only [npos, SIZE_MOD] at hlen
  have h1 := GetContentFromBrackets_field [] T ('[' :: (S ++ ']' :: B)) 0 hT
    (by rw [← hmsg]; simp only [npos, SIZE_MOD]; exact hlen)
  rw [← hmsg] at h1
  simp only [List.length_nil, Nat.zero_add] at h1
  have hcur : addSz (T.length + 1) 1 = ('[' :: (T ++ [']'])).length := by
    simp [addSz, SIZE_MOD]; omega
  have h2 : GetContentFromBrackets (IncomingFormat T S B) (addSz (T.length + 1) 1) (T.length + 1)
      = .ok (S, T.length + 2 + S.length + 1) := by
    rw [hcur]
    have := GetContentFromBrackets_field ('[' :: (T ++ [']'])) S B (T.length + 1) hS
      (by rw [← hmsg2]; simp only [npos, SIZE_MOD]; exact hlen)
    rw [← hmsg2] at this
    simpa using this
  have hcur2 : addSz (T.length + 2 + S.length + 1) 1
      = ('[' :: (T ++ (']' :: '[' :: (S ++ [']'])))).length := by
    simp [addSz, SIZE_MOD]; omega
  have h3 : substr (IncomingFormat T S B) (addSz (T.length + 2 + S.length + 1) 1) INT_MAX
      = .ok (B.take INT_MAX) := by
    rw [hcur2, hmsg3]
    exact substr_drop_append _ B _
  unfold ParseIncomingMessage
  simp [h1, h2, h3, bind, Except.bind, pure, Except.pure]

/-! ## The readiness invariant -/

theorem NETLOG_ok_of_level (tag : Char) (threshold : Int) (env : Env) (st : Manager) (x : Str)
    (level : Int) (h : st.CvarLogLevel = some level) :
    ∃ logged, NETLOG tag threshold env st x = .ok logged ∧ ∀ e ∈ logged, e.isLog = true := by
  unfold NETLOG
  rw [h]
  by_cases hl : level > threshold
  · simp [hl, Event.isLog]
  · simp [hl]

theorem NETLOG_null (tag : Char) (threshold : Int) (env : Env) (st : Manager) (x : Str)
    (h : st.CvarLogLevel = none) :
    NETLOG tag threshold env st x = .error .null_deref := by
  unfold NETLOG
  rw [h]

theorem SendNewMessage_state (env : Env) (st : Manager) (InMessage : Str) :
    (SendNewMessage env st InMessage).state = st := by
  simp only [SendNewMessage]
  split
  · rfl
  · split <;> rfl

theorem ReceiveMessage_state (env : Env) (st : Manager) :
    (ReceiveMessage env st).state = st := by
  simp only [ReceiveMessage]
  split
  · rfl
  · split
    · rfl
    · split
      · rfl
      · split
        · rfl
        · split <;> rfl

theorem OnSuccessfulLoadDetection_allocated (env : Env) (st : Manager)
    (h : LogLevelAllocated st) : LogLevelAllocated (OnSuccessfulLoadDetection env st).state := by
  simp only [OnSuccessfulLoadDetection]
  split
  · exact h
  · split
    · split <;> simp [LogLevelAllocated]
    · split
      · split <;> simp [LogLevelAllocated]
      · split <;> simp [LogLevelAllocated]

theorem NetcodeLoadLoop_allocated (env : Env) (st : Manager) (b : Bool)
    (h : LogLevelAllocated st) : LogLevelAllocated (NetcodeLoadLoop env st b).state := by
  simp only [NetcodeLoadLoop]
  by_cases hg : (CheckIfGood st FUNCTION_NetcodeLoadLoop).1 = true
  · simp only [hg, if_true]
    exact h
  · simp only [hg]
    by_cases ha : (if b = true then 0 else st.LoadAttempts) + 1 ≥ 20
    · simp only [ha, if_true]
      exact h
    · simp only [ha]
      by_cases hl : (IsNetcodeLoaded env).1 = true
      · simp only [hl, if_true]
        exact OnSuccessfulLoadDetection_allocated env _ h
      · simp only [hl]
        exact h

theorem Reachable.allocated {st : Manager} (hr : Reachable st) : LogLevelAllocated st := by
  induction hr with
  | construct env className attempts =>
    exact NetcodeLoadLoop_allocated env _ true (by simp [LogLevelAllocated])
  | SendNewMessage env st InMessage _ ih => rw [SendNewMessage_state]; exact ih
  | ReceiveMessage env st _ ih => rw [ReceiveMessage_state]; exact ih
  | NetcodeLoadLoop env st _ ih => exact NetcodeLoadLoop_allocated env st false ih
  | logLevelChanged st level _ _ _ => simp [LogLevelAllocated]

/-- In a reachable Ready state the log-level handle points to some level. -/
theorem Reachable.level_of_good {st : Manager} (hr : Reachable st) (hgood : st.bIsGood = true) :
    ∃ level, st.CvarLogLevel = some level :=
  Option.ne_none_iff_exists'.mp (hr.allocated hgood)

/-! ## Round trip and decoding (C1, C2, C3) -/

/-- C1, as stated, fails: the tag `Chat` has no bracket and the encoded message
`[Chat][1]x` has 10 characters, yet decoding it takes the start of the body `[1]x` for the
sender field: the sender is 1 and the content is `x`, not a null sender and `[1]x`. -/
theorem roundtrip_fails_when_body_opens_bracket :
    '[' ∉ "Chat".toList ∧ ']' ∉ "Chat".toList ∧
    (OutMessage "Chat".toList "[1]x".toList).length ≤ 128 ∧
    ParseIncomingMessage (OutMessage "Chat".toList "[1]x".toList)
      = .ok { PluginClassName := "Chat".toList, Sender := 1, MessageContent := "x".toList } ∧
    ParseIncomingMessage (OutMessage "Chat".toList "[1]x".toList)
      ≠ .ok { PluginClassName := "Chat".toList, Sender := 0, MessageContent := "[1]x".toList } := by
  decide

/-- C1, amended: for every tag `T` containing neither `[` nor `]` and every body `B` that
is empty or does not begin with `[`, with `len("[" + T + "]" + B) ≤ 128`, decoding the
string the send path builds yields `PluginClassName = T`, `MessageContent = B` and a null
sender. -/
theorem roundtrip_when_body_opens_no_bracket (T B : Str)
    (hT1 : '[' ∉ T) (hT2 : ']' ∉ T) (hlen : (OutMessage T B).length ≤ 128)
    (hB : B.head? ≠ some '[') :
    ParseIncomingMessage (OutMessage T B)
      = .ok { PluginClassName := T, Sender := 0, MessageContent := B } := by
  have _ := hT1
  have hl : (OutMessage T B).length = T.length + B.length + 2 := by
    simp [OutMessage]; omega
  have h := ParseIncomingMessage_one_field T B hT2 hB (by unfold npos SIZE_MOD; omega)
  have htake : B.take INT_MAX = B := List.take_of_length_le (by unfold INT_MAX; omega)
  rw [h, htake]

/-- Instance of the amended C1 at tag `Chat` and body `hi`. -/
theorem roundtrip_when_body_opens_no_bracket_witness :
    ParseIncomingMessage (OutMessage "Chat".toList "hi".toList)
      = .ok { PluginClassName := "Chat".toList, Sender := 0, MessageContent := "hi".toList } :=
  roundtrip_when_body_opens_no_bracket "Chat".toList "hi".toList
    (by decide) (by decide) (by decide) (by decide)

/-- C2, at the failing input: on the empty message both field lookups leave the end cursor
at 0, the body cursor is 1, and `substr(1, INT_MAX)` on a string of size 0 throws
`std::out_of_range`; `ParseIncomingMessage` does not return a `ParsedMessageData`. The
exception leaves `ReceiveMessage` when a Ready instance reads an empty incoming value, and
an instance whose class name is empty does not get its handler called with empty fields. -/
theorem ParseIncomingMessage_empty_throws :
    ParseIncomingMessage [] = .error Fault.out_of_range ∧
    (ReceiveMessage (loadedEnv []) (readyManager "Chat".toList)).fault
      = some Fault.out_of_range ∧
    (ReceiveMessage (loadedEnv []) (readyManager "".toList)).handlerCalls = [] := by
  decide

/-- C3, as stated, fails: with empty tag and sender field and a body of `2 ^ 31`
characters `a`, the call `substr(StartPoint, INT_MAX)` keeps only `INT_MAX = 2 ^ 31 - 1`
characters of the body, so the content differs from the body. -/
theorem content_truncated_beyond_INT_MAX :
    ParseIncomingMessage (IncomingFormat [] [] (List.replicate 2147483648 'a'))
      = .ok { PluginClassName := [], Sender := GetSenderPri [],
              MessageContent := List.replicate 2147483647 'a' } ∧
    ParseIncomingMessage (IncomingFormat [] [] (List.replicate 2147483648 'a'))
      ≠ .ok { PluginClassName := [], Sender := GetSenderPri [],
              MessageContent := List.replicate 2147483648 'a' } := by
  have hlen : (IncomingFormat [] [] (List.replicate 2147483648 'a')).length < npos := by
    simp only [IncomingFormat, List.length_append, List.length_replicate, npos, SIZE_MOD]
    simp
  have h := ParseIncomingMessage_two_fields [] [] (List.replicate 2147483648 'a')
    (by simp) (by simp) hlen
  have htake : List.take INT_MAX (List.replicate 2147483648 'a')
      = List.replicate 2147483647 'a' := by
    rw [List.take_replicate]
    rfl
  rw [htake] at h
  refine ⟨h, ?_⟩
  rw [h]
  intro hEq
  have hc := congrArg (fun d => d.MessageContent.length) (Except.ok.inj hEq)
  simp only [List.length_replicate] at hc
  omega

/-- C3, amended: for every tag `T` and sender field `S` containing neither `[` nor `]` and
every body `B` of at most `INT_MAX` characters (arbitrary characters, further brackets
included), in a message whose size is below `npos`, decoding `"[" + T + "][" + S + "]" + B`
returns `PluginClassName = T`, `Sender = GetSenderPri(S)` and `MessageContent = B`. -/
theorem decode_incoming_format (T S B : Str)
    (hT1 : '[' ∉ T) (hT2 : ']' ∉ T) (hS1 : '[' ∉ S) (hS2 : ']' ∉ S)
    (hB : B.length ≤ INT_MAX) (hsize : (IncomingFormat T S B).length < npos) :
    ParseIncomingMessage (IncomingFormat T S B)
      = .ok { PluginClassName := T, Sender := GetSenderPri S, MessageContent := B } := by
  have _ := hT1
  have _ := hS1
  rw [ParseIncomingMessage_two_fields T S B hT2 hS2 hsize, List.take_of_length_le hB]

/-- Instance of the amended C3: a body that itself contains brackets is returned
verbatim. -/
theorem decode_incoming_format_witness :
    ParseIncomingMessage (IncomingFormat "Chat".toList "12345".toList "a[b]c]".toList)
      = .ok { PluginClassName := "Chat".toList, Sender := 12345,
              MessageContent := "a[b]c]".toList } :=
  decode_incoming_format "Chat".toList "12345".toList "a[b]c]".toList
    (by decide) (by decide) (by decide) (by decide) (by decide) (by decide)

/-! ## Routing (C4) -/

theorem filter_handler_of_logs (l : List Event) (h : ∀ e ∈ l, e.isLog = true) :
    l.filter Event.isHandlerCall = [] := by
  rw [List.filter_eq_nil_iff]
  intro e he
  have := h e he
  cases e <;> simp_all [Event.isLog, Event.isHandlerCall]

theorem filter_setValue_of_logs (l : List Event) (h : ∀ e ∈ l, e.isLog = true) :
    l.filter Event.isSetValue = [] := by
  rw [List.filter_eq_nil_iff]
  intro e he
  have := h e he
  cases e <;> simp_all [Event.isLog, Event.isSetValue]

theorem LogMessageData_ok_of_level (env : Env) (st : Manager) (d : ParsedMessageData)
    (level : Int) (h : st.CvarLogLevel = some level) :
    ∃ logged, LogMessageData env st d = .ok logged ∧ ∀ e ∈ logged, e.isLog = true := by
  simp only [LogMessageData, NETLOGC]
  exact NETLOG_ok_of_level 'C' 2 env st _ level h

/-- C4: for every incoming raw value and every local tag, in a reachable Ready state,
`ReceiveMessage` calls the registered handler exactly once, with the decoded body and
sender, when the decoded plugin tag equals the local class name, and does not call it
otherwise (a different tag, or a raw value on which decoding throws). -/
theorem ReceiveMessage_routing (env : Env) (st : Manager) (raw tag : Str)
    (hr : Reachable st) (hgood : st.bIsGood = true)
    (hraw : env.getStringValue CVAR_MESSAGE_IN = raw) (htag : st.className = tag) :
    (ReceiveMessage env st).handlerCalls =
      match ParseIncomingMessage raw with
      | .ok d =>
        if d.PluginClassName = tag then
          [Event.MessageHandlingFunction d.MessageContent d.Sender]
        else []
      | .error _ => [] := by
  obtain ⟨level, hlevel⟩ := hr.level_of_good hgood
  obtain ⟨logged, hlog, hall⟩ :=
    NETLOG_ok_of_level 'C' 2 env st ("Receiving message: ".toList ++ raw) level hlevel
  simp only [ReceiveMessage, CheckIfGood, hgood, NETLOGC, hraw, hlog, Run.handlerCalls]
  cases hparse : ParseIncomingMessage raw with
  | error f => simpa using filter_handler_of_logs logged hall
  | ok d =>
    by_cases hd : d.PluginClassName = tag
    · obtain ⟨logged2, hlog2, hall2⟩ := LogMessageData_ok_of_level env st d level hlevel
      simp [hlog2, hd, htag.symm, List.filter_append, filter_handler_of_logs logged hall,
        filter_handler_of_logs logged2 hall2, Event.isHandlerCall]
    · have hd2 : d.PluginClassName ≠ st.className := by rw [htag]; exact hd
      simp [hd, hd2, filter_handler_of_logs logged hall]

/-- The examples of C4: raw value `[Chat][12345]hello there`; with local tag `Chat` the
handler is called once with (`hello there`, 12345), with local tag `Other` it is not
called. -/
theorem ReceiveMessage_routing_witness :
    (ReceiveMessage (loadedEnv "[Chat][12345]hello there".toList)
        (readyManager "Chat".toList)).handlerCalls
      = [Event.MessageHandlingFunction "hello there".toList 12345] ∧
    (ReceiveMessage (loadedEnv "[Chat][12345]hello there".toList)
        (readyManager "Other".toList)).handlerCalls = [] :=
  ⟨ReceiveMessage_routing (loadedEnv "[Chat][12345]hello there".toList)
      (readyManager "Chat".toList) "[Chat][12345]hello there".toList "Chat".toList
      (Reachable.construct (loadedEnv []) "Chat".toList 0) (by decide) (by decide) (by decide),
   ReceiveMessage_routing (loadedEnv "[Chat][12345]hello there".toList)
      (readyManager "Other".toList) "[Chat][12345]hello there".toList "Other".toList
      (Reachable.construct (loadedEnv []) "Other".toList 0) (by decide) (by decide) (by decide)⟩

/-! ## Retry bound (C5) -/

theorem IsNetcodeLoaded_events (env : Env) : (IsNetcodeLoaded env).2 = [Event.GetPluginManager] := by
  unfold IsNetcodeLoaded
  split <;> rfl

/-- One invocation of the load loop while not Ready and with NetcodePlugin not loaded:
`a` is the value of `LoadAttempts` after the optional reset. -/
theorem NetcodeLoadLoop_absent (env : Env) (st : Manager) (b : Bool) (a : Int)
    (hnot : st.bIsGood = false) (habs : (IsNetcodeLoaded env).1 = false)
    (ha : (if b = true then 0 else st.LoadAttempts) = a) :
    (NetcodeLoadLoop env st b).state = { st with LoadAttempts := a + 1 } ∧
    (NetcodeLoadLoop env st b).fault = none ∧
    (a + 1 ≥ 20 →
      (NetcodeLoadLoop env st b).probes = 0 ∧ (NetcodeLoadLoop env st b).retries = 0 ∧
      (NetcodeLoadLoop env st b).events.any Event.isSetTimeout = false) ∧
    (¬ a + 1 ≥ 20 →
      (NetcodeLoadLoop env st b).probes = 1 ∧ (NetcodeLoadLoop env st b).retries = 1 ∧
      (NetcodeLoadLoop env st b).events.any Event.isSetTimeout = true) := by
  by_cases h20 : a + 1 ≥ 20
  · simp [NetcodeLoadLoop, CheckIfGood, hnot, ha, h20, Run.probes, Run.retries,
      Event.isProbe, Event.isSetTimeout]
  · by_cases hfile : DoesNetcodePluginExist env = true
    · simp [NetcodeLoadLoop, CheckIfGood, hnot, ha, h20, habs, hfile, IsNetcodeLoaded_events,
        Run.probes, Run.retries, Event.isProbe, Event.isSetTimeout]
    · simp [NetcodeLoadLoop, CheckIfGood, hnot, ha, h20, habs, hfile, IsNetcodeLoaded_events,
        Run.probes, Run.retries, Event.isProbe, Event.isSetTimeout]

/-- The chain of invocations when `n` probes remain before the attempt limit. -/
theorem fireRetries_absent (envs : Nat → Env)
    (hnever : ∀ i, (IsNetcodeLoaded (envs i)).1 = false) (n : Nat) :
    ∀ (fuel i : Nat) (b : Bool) (st : Manager), st.bIsGood = false →
      (if b = true then 0 else st.LoadAttempts) = 19 - (n : Int) → n + 1 ≤ fuel →
      (fireRetries envs fuel i b st).length = n + 1 ∧
      ((fireRetries envs fuel i b st).map Run.probes).sum = n ∧
      ((fireRetries envs fuel i b st).map Run.retries).sum = n ∧
      (∀ r ∈ fireRetries envs fuel i b st,
        r.retries = r.probes ∧ r.probes ≤ 1 ∧ r.fault = none ∧ r.state.bIsGood = false) ∧
      (∃ last, (fireRetries envs fuel i b st).getLast? = some last ∧
        last.probes = 0 ∧ last.retries = 0 ∧ last.state.LoadAttempts = 20) := by
  induction n with
  | zero =>
    intro fuel i b st hnot ha hfuel
    obtain ⟨fuel, rfl⟩ : ∃ f, fuel = f + 1 := ⟨fuel - 1, by omega⟩
    obtain ⟨hs, hf, hge, _⟩ := NetcodeLoadLoop_absent (envs i) st b _ hnot (hnever i) ha
    obtain ⟨hp, hr, hany⟩ := hge (by simp)
    simp only [fireRetries, hany]
    simp [hp, hr, hf, hs, hnot]
  | succ n ih =>
    intro fuel i b st hnot ha hfuel
    obtain ⟨fuel, rfl⟩ : ∃ f, fuel = f + 1 := ⟨fuel - 1, by omega⟩
    obtain ⟨hs, hf, _, hlt⟩ := NetcodeLoadLoop_absent (envs i) st b _ hnot (hnever i) ha
    obtain ⟨hp, hr, hany⟩ := hlt (by push_cast; omega)
    have hnot2 : (NetcodeLoadLoop (envs i) st b).state.bIsGood = false := by rw [hs]; exact hnot
    have ha2 : (if false = true then 0 else (NetcodeLoadLoop (envs i) st b).state.LoadAttempts)
        = 19 - (n : Int) := by
      simp only [hs, Bool.false_eq_true, if_false]; push_cast; omega
    obtain ⟨h1, h2, h3, h4, last, h5, h6⟩ :=
      ih fuel (i + 1) false (NetcodeLoadLoop (envs i) st b).state hnot2 ha2 (by omega)
    simp only [fireRetries, hany, if_true]
    refine ⟨by simp [h1], by simp [h2, hp]; omega, by simp [h3, hr]; omega, ?_, last, ?_, h6⟩
    · intro r hrmem
      rcases List.mem_cons.mp hrmem with rfl | hmem
      · exact ⟨by rw [hp, hr], by rw [hp], hf, hnot2⟩
      · exact h4 r hmem
    · rw [List.getLast?_cons, h5]
      rfl

/-- C5, as stated, fails: with collaborators that never report NetcodePlugin as loaded,
the chain started by `NetcodeLoadLoop(true)` consists of 20 invocations and queries the
registry 19 times, not 20: the invocation that raises `LoadAttempts` to 20 returns before
probing. -/
theorem load_loop_probes_19_times :
    (∀ i : Nat, (IsNetcodeLoaded ((fun _ => absentEnv) i)).1 = false) ∧
    (fireRetries (fun _ => absentEnv) 100 0 true (freshManager "Chat".toList)).length = 20 ∧
    ((fireRetries (fun _ => absentEnv) 100 0 true (freshManager "Chat".toList)).map
      Run.probes).sum = 19 ∧
    ((fireRetries (fun _ => absentEnv) 100 0 true (freshManager "Chat".toList)).map
      Run.probes).sum ≠ 20 := by
  refine ⟨fun _ => (by decide : (IsNetcodeLoaded absentEnv).1 = false), by decide, by decide,
    by decide⟩

/-- C5, amended: starting from `NetcodeLoadLoop(true)` in a state that is not Ready, with
a registry that never reports NetcodePlugin as loaded, and firing every scheduled retry,
the chain ends by itself after exactly 20 invocations; it performs exactly 19 probes,
each in an invocation that schedules exactly one retry, and the last invocation (the one
that gives up, with `LoadAttempts = 20`) neither probes nor schedules anything. -/
theorem load_loop_gives_up (envs : Nat → Env) (st : Manager) (fuel : Nat)
    (hnever : ∀ i, (IsNetcodeLoaded (envs i)).1 = false)
    (hnot : st.bIsGood = false) (hfuel : 20 ≤ fuel) :
    (fireRetries envs fuel 0 true st).length = 20 ∧
    ((fireRetries envs fuel 0 true st).map Run.probes).sum = 19 ∧
    ((fireRetries envs fuel 0 true st).map Run.retries).sum = 19 ∧
    (∀ r ∈ fireRetries envs fuel 0 true st,
      r.retries = r.probes ∧ r.probes ≤ 1 ∧ r.fault = none ∧ r.state.bIsGood = false) ∧
    (∃ last, (fireRetries envs fuel 0 true st).getLast? = some last ∧
      last.probes = 0 ∧ last.retries = 0 ∧ last.state.LoadAttempts = 20) :=
  fireRetries_absent envs hnever 19 fuel 0 true st hnot (by simp) (by omega)

/-- Instance of the amended C5 for a fresh instance and collaborators for which
NetcodePlugin stays absent. -/
theorem load_loop_gives_up_witness :
    (fireRetries (fun _ => absentEnv) 20 0 true (freshManager "Chat".toList)).length = 20 ∧
    ((fireRetries (fun _ => absentEnv) 20 0 true (freshManager "Chat".toList)).map
      Run.probes).sum = 19 :=
  have h := load_loop_gives_up (fun _ => absentEnv) (freshManager "Chat".toList) 20
    (fun _ => (by decide : (IsNetcodeLoaded absentEnv).1 = false)) (by decide) (by decide)
  ⟨h.1, h.2.1⟩

/-! ## Sending (C6, C8, C9, C10) -/

/-- C6: for every body, `SendNewMessage` called while `bIsGood = false` returns with the
state unchanged after exactly one call to a collaborator, the log line
`NetcodeManager function (<function>) failed. NetcodePlugin is not loaded.`; in
particular it writes no shared variable. -/
theorem SendNewMessage_not_ready (env : Env) (st : Manager) (InMessage : Str)
    (hnot : st.bIsGood = false) :
    SendNewMessage env st InMessage =
      { state := st
        events := [Event.log ("NetcodeManager function (".toList ++ FUNCTION_SendNewMessage
          ++ ") failed. NetcodePlugin is not loaded.".toList)]
        fault := none } ∧
    (SendNewMessage env st InMessage).writes = [] := by
  simp [SendNewMessage, CheckIfGood, hnot, Run.writes, Event.isSetValue]

/-- Instance of C6 on a fresh instance. -/
theorem SendNewMessage_not_ready_witness :
    (SendNewMessage absentEnv (freshManager "Chat".toList) "hi".toList).writes = [] ∧
    (SendNewMessage absentEnv (freshManager "Chat".toList) "hi".toList).state
      = freshManager "Chat".toList ∧
    (SendNewMessage absentEnv (freshManager "Chat".toList) "hi".toList).logs.length = 1 :=
  have h := SendNewMessage_not_ready absentEnv (freshManager "Chat".toList) "hi".toList
    (by decide)
  ⟨h.2, by rw [h.1], by rw [h.1]; decide⟩

/-- What `SendNewMessage` does in a state that is Ready with an allocated log level. -/
theorem SendNewMessage_ready (env : Env) (st : Manager) (InMessage : Str) (level : Int)
    (hgood : st.bIsGood = true) (hlevel : st.CvarLogLevel = some level) :
    ∃ logged, (∀ e ∈ logged, e.isLog = true) ∧
      SendNewMessage env st InMessage =
        { state := st
          events := logged ++ [Event.setValue CVAR_MESSAGE_OUT (OutMessage st.className InMessage)]
          fault := none } := by
  obtain ⟨logged, hlog, hall⟩ := NETLOG_ok_of_level 'C' 2 env st
    ("Sending NetcodeManager message: ".toList ++ OutMessage st.className InMessage) level hlevel
  refine ⟨logged, hall, ?_⟩
  simp only [SendNewMessage, CheckIfGood, hgood, NETLOGC, hlog]
  simp

theorem SendNewMessage_ready_writes (env : Env) (st : Manager) (InMessage : Str)
    (hr : Reachable st) (hgood : st.bIsGood = true) :
    (SendNewMessage env st InMessage).writes
      = [Event.setValue CVAR_MESSAGE_OUT (OutMessage st.className InMessage)] ∧
    (SendNewMessage env st InMessage).fault = none := by
  obtain ⟨level, hlevel⟩ := hr.level_of_good hgood
  obtain ⟨logged, hall, hrun⟩ := SendNewMessage_ready env st InMessage level hgood hlevel
  rw [hrun]
  simp [Run.writes, List.filter_append, filter_setValue_of_logs logged hall, Event.isSetValue]

/-- C8: for every local tag `T` and body `B`, `SendNewMessage` called in a reachable Ready
state makes exactly one write to a shared variable: it sets `NETCODE_Message_Out` to
`"[" + T + "]" + B`; it ends without a fault and leaves the state unchanged. -/
theorem SendNewMessage_wire_format (env : Env) (st : Manager) (T B : Str)
    (hr : Reachable st) (hgood : st.bIsGood = true) (htag : st.className = T) :
    (SendNewMessage env st B).writes
      = [Event.setValue "NETCODE_Message_Out".toList ("[".toList ++ T ++ "]".toList ++ B)] ∧
    (SendNewMessage env st B).fault = none ∧
    (SendNewMessage env st B).state = st := by
  obtain ⟨hw, hf⟩ := SendNewMessage_ready_writes env st B hr hgood
  rw [htag] at hw
  exact ⟨hw, hf, SendNewMessage_state env st B⟩

/-- The example of C8: tag `Chat` and body `hi` write exactly `[Chat]hi`. -/
theorem SendNewMessage_wire_format_witness :
    (SendNewMessage (loadedEnv []) (readyManager "Chat".toList) "hi".toList).writes
      = [Event.setValue "NETCODE_Message_Out".toList "[Chat]hi".toList] :=
  (SendNewMessage_wire_format (loadedEnv []) (readyManager "Chat".toList) "Chat".toList
    "hi".toList (Reachable.construct (loadedEnv []) "Chat".toList 0) (by decide) (by decide)).1

/-- C9, as stated, fails: with tag `Chat` and a body of 119 characters the fully framed
message `[PC][Chat]` + body has 129 characters, above the ceiling of 128, and
`SendNewMessage` in the Ready state still ends without a fault and writes the whole
string to `NETCODE_Message_Out`. -/
theorem SendNewMessage_writes_overlong :
    ("[PC]".toList ++ OutMessage "Chat".toList (List.replicate 119 'x')).length = 129 ∧
    (SendNewMessage (loadedEnv []) (readyManager "Chat".toList)
      (List.replicate 119 'x')).fault = none ∧
    (SendNewMessage (loadedEnv []) (readyManager "Chat".toList)
      (List.replicate 119 'x')).writes
      = [Event.setValue CVAR_MESSAGE_OUT (OutMessage "Chat".toList (List.replicate 119 'x'))] ∧
    (SendNewMessage (loadedEnv []) (readyManager "Chat".toList)
      (List.replicate 119 'x')).writes ≠ [] := by
  have h := SendNewMessage_ready_writes (loadedEnv []) (readyManager "Chat".toList)
    (List.replicate 119 'x') (Reachable.construct (loadedEnv []) "Chat".toList 0) (by decide)
  refine ⟨by simp [OutMessage], h.2, h.1, ?_⟩
  rw [h.1]
  simp

/-- C9, amended: for every tag `T` and body `B` whose fully framed result (`[PC]` plus
`"[" + T + "]" + B`) exceeds 128 characters, `SendNewMessage` in a reachable Ready state
checks no length: it ends without a fault and writes the whole string `"[" + T + "]" + B`
to `NETCODE_Message_Out`. -/
theorem SendNewMessage_no_length_check (env : Env) (st : Manager) (T B : Str)
    (hr : Reachable st) (hgood : st.bIsGood = true) (htag : st.className = T)
    (hlong : ("[PC]".toList ++ ("[".toList ++ T ++ "]".toList ++ B)).length > 128) :
    (SendNewMessage env st B).fault = none ∧
    (SendNewMessage env st B).writes
      = [Event.setValue CVAR_MESSAGE_OUT ("[".toList ++ T ++ "]".toList ++ B)] ∧
    ("[".toList ++ T ++ "]".toList ++ B).length > 124 := by
  obtain ⟨hw, hf⟩ := SendNewMessage_ready_writes env st B hr hgood
  rw [htag] at hw
  refine ⟨hf, hw, ?_⟩
  have h4 : "[PC]".toList.length = 4 := by decide
  rw [List.length_append, h4] at hlong
  omega

/-- Instance of the amended C9 at tag `Chat` and a body of 119 characters. -/
theorem SendNewMessage_no_length_check_witness :
    (SendNewMessage (loadedEnv []) (readyManager "Chat".toList)
      (List.replicate 119 'x')).fault = none ∧
    (SendNewMessage (loadedEnv []) (readyManager "Chat".toList)
      (List.replicate 119 'x')).writes
      = [Event.setValue CVAR_MESSAGE_OUT
          ("[".toList ++ "Chat".toList ++ "]".toList ++ List.replicate 119 'x')] :=
  have h := SendNewMessage_no_length_check (loadedEnv []) (readyManager "Chat".toList)
    "Chat".toList (List.replicate 119 'x') (Reachable.construct (loadedEnv []) "Chat".toList 0)
    (by decide) (by decide) (by simp)
  ⟨h.1, h.2.1⟩

/-- C10: for every class name `C` and message `M`, the string `SendNewMessage` writes in a
reachable Ready state has length `len(C) + len(M) + 2`, so the message completed by the
four characters `[PC]` (or `[PH]`) has at most 128 characters if and only if
`len(M) ≤ 122 - len(C)` over the integers. -/
theorem SendNewMessage_length_budget (env : Env) (st : Manager) (C M : Str)
    (hr : Reachable st) (hgood : st.bIsGood = true) (htag : st.className = C) :
    ∃ v, (SendNewMessage env st M).writes = [Event.setValue CVAR_MESSAGE_OUT v] ∧
      v.length = C.length + M.length + 2 ∧
      (("[PC]".toList ++ v).length ≤ 128 ↔ (M.length : Int) ≤ 122 - (C.length : Int)) ∧
      (("[PH]".toList ++ v).length ≤ 128 ↔ (M.length : Int) ≤ 122 - (C.length : Int)) := by
  obtain ⟨hw, _⟩ := SendNewMessage_ready_writes env st M hr hgood
  rw [htag] at hw
  have hl : (OutMessage C M).length = C.length + M.length + 2 := by
    simp [OutMessage]; omega
  have h4 : "[PC]".toList.length = 4 := by decide
  have h5 : "[PH]".toList.length = 4 := by decide
  refine ⟨OutMessage C M, hw, hl, ?_, ?_⟩
  · rw [List.length_append, h4, hl]; omega
  · rw [List.length_append, h5, hl]; omega

/-- Instance of C10 at class name `Chat` and message `hi`. -/
theorem SendNewMessage_length_budget_witness :
    ∃ v, (SendNewMessage (loadedEnv []) (readyManager "Chat".toList) "hi".toList).writes
        = [Event.setValue CVAR_MESSAGE_OUT v] ∧
      v.length = 8 ∧ ("[PC]".toList ++ v).length ≤ 128 :=
  match SendNewMessage_length_budget (loadedEnv []) (readyManager "Chat".toList)
    "Chat".toList "hi".toList (Reachable.construct (loadedEnv []) "Chat".toList 0)
    (by decide) (by decide) with
  | ⟨v, hw, hl, hpc, _⟩ => ⟨v, hw, hl, hpc.mpr (by decide)⟩

/-! ## Authority (C7) -/

/-- C7: with `session` the replay view if in a replay, else the online-game view if in an
online game, else the generic server view, `GetMatchAuthority` returns `Client` exactly
when the session is non-null, its playlist is non-null and LAN, and the local process is
in an online game; `Host` exactly when the session is non-null, its playlist is non-null
and LAN, and the local process is not in an online game; `None` in every other case. -/
theorem GetMatchAuthority_decision (env : Env) (session : Nat)
    (hsession : session =
      if env.IsInReplay = true then env.GetGameEventAsReplay
      else if env.IsInOnlineGame = true then env.GetOnlineGame
      else env.GetGameEventAsServer) :
    (GetMatchAuthority env = EAuthority.Client ↔
      session ≠ 0 ∧ env.GetPlaylist session ≠ 0 ∧
        env.IsLanMatch (env.GetPlaylist session) = true ∧ env.IsInOnlineGame = true) ∧
    (GetMatchAuthority env = EAuthority.Host ↔
      session ≠ 0 ∧ env.GetPlaylist session ≠ 0 ∧
        env.IsLanMatch (env.GetPlaylist session) = true ∧ env.IsInOnlineGame = false) ∧
    (GetMatchAuthority env = EAuthority.None ↔
      session = 0 ∨ env.GetPlaylist session = 0 ∨
        env.IsLanMatch (env.GetPlaylist session) = false) := by
  have hs : GetCurrentGameState env = session := by rw [hsession]; rfl
  simp only [GetMatchAuthority, hs]
  by_cases h1 : session = 0
  · simp [h1]
  · by_cases h2 : env.GetPlaylist session = 0
    · simp [h1, h2]
    · cases h3 : env.IsLanMatch (env.GetPlaylist session)
      · simp [h1, h2, h3]
      · cases h4 : env.IsInOnlineGame <;> simp [h1, h2, h3, h4]

/-- The cases of C7 on concrete collaborators: a LAN match owned by the local process
gives `Host`, a LAN match joined as a client gives `Client`, no session gives `None`. -/
theorem GetMatchAuthority_decision_witness :
    GetMatchAuthority (lanEnv false) = EAuthority.Host ∧
    GetMatchAuthority (lanEnv true) = EAuthority.Client ∧
    GetMatchAuthority absentEnv = EAuthority.None :=
  ⟨(GetMatchAuthority_decision (lanEnv false) 1000 (by decide)).2.1.mpr (by decide),
   (GetMatchAuthority_decision (lanEnv true) 1000 (by decide)).1.mpr (by decide),
   (GetMatchAuthority_decision absentEnv 0 (by decide)).2.2.mpr (by decide)⟩

/-! ## Totality of decoding away from the empty message -/

theorem firstIndex_lt_length (c : Char) (s : List Char) (i : Nat)
    (h : firstIndex c s = some i) : i < s.length := by
  induction s generalizing i with
  | nil => simp [firstIndex] at h
  | cons x xs ih =>
    by_cases hx : x = c
    · simp [firstIndex, hx] at h
      simp [← h]
    · simp only [firstIndex, hx, if_false, Option.map_eq_some'] at h
      obtain ⟨j, hj, rfl⟩ := h
      have := ih j hj
      simp
      omega

/-- The position returned by `find_first_of` is inside the string or is `npos`. -/
theorem find_first_of_range (s : Str) (c : Char) (pos : Nat) :
    find_first_of s c pos < s.length ∨ find_first_of s c pos = npos := by
  cases h : firstIndex c (s.drop pos) with
  | none =>
    right
    simp [find_first_of, h]
  | some i =>
    left
    have := firstIndex_lt_length c _ i h
    simp only [List.length_drop] at this
    simp only [find_first_of, h]
    omega

/-- A field lookup never throws, and it leaves the end cursor unchanged, inside the
message, or at `npos`. -/
theorem GetContentFromBrackets_total (msg : Str) (start e : Nat) (hsize : msg.length < npos) :
    ∃ out e2, GetContentFromBrackets msg start e = .ok (out, e2) ∧
      (e2 = e ∨ e2 < msg.length ∨ e2 = npos) := by
  unfold GetContentFromBrackets
  by_cases hguard : msg ≠ [] ∧ start < msg.length
  · rw [if_pos hguard]
    have hat : ∃ c, at_ msg start = .ok c := by
      unfold at_
      cases hget : msg.get? start with
      | none => exact absurd (List.get?_eq_none.mp hget) (by omega)
      | some c => exact ⟨c, rfl⟩
    obtain ⟨c, hc⟩ := hat
    rw [hc]
    by_cases hopen : c = '['
    · by_cases hfound : find_first_of msg ']' start = npos
      · refine ⟨[], npos, ?_, Or.inr (Or.inr rfl)⟩
        simp [hopen, hfound, bind, Except.bind, pure, Except.pure]
      · have hin : find_first_of msg ']' start < msg.length :=
          (find_first_of_range msg ']' start).resolve_right hfound
        have hpos : ¬ addSz start 1 > msg.length := by
          simp only [npos, SIZE_MOD] at hsize
          unfold addSz SIZE_MOD
          omega
        refine ⟨(List.drop (addSz start 1) msg).take
            (subSz (subSz (find_first_of msg ']' start) start) 1),
          find_first_of msg ']' start, ?_, Or.inr (Or.inl hin)⟩
        simp only [bind, Except.bind, pure, Except.pure, hopen, if_true, substr, hpos,
          if_false, hfound, ne_eq, not_false_eq_true]
    · exact ⟨[], e, by simp [hopen, bind, Except.bind, pure, Except.pure], Or.inl rfl⟩
  · rw [if_neg hguard]
    exact ⟨[], e, rfl, Or.inl rfl⟩

/-- Decoding a non-empty message never throws: the empty message is the only input on
which `ParseIncomingMessage` leaves by an exception. -/
theorem ParseIncomingMessage_total_of_ne_nil (msg : Str) (hne : msg ≠ [])
    (hsize : msg.length < npos) : ∃ d, ParseIncomingMessage msg = .ok d := by
  have hpos : 0 < msg.length := List.length_pos.mpr hne
  obtain ⟨out1, e1, h1, hr1⟩ := GetContentFromBrackets_total msg 0 0 hsize
  obtain ⟨out2, e2, h2, hr2⟩ := GetContentFromBrackets_total msg (addSz e1 1) e1 hsize
  have hcur : ¬ addSz e2 1 > msg.length := by
    simp only [npos, SIZE_MOD] at hsize hr1 hr2
    unfold addSz SIZE_MOD
    omega
  unfold ParseIncomingMessage
  simp [h1, h2, substr, hcur, bind, Except.bind, pure, Except.pure]

/-! ## The restriction on the body in the round trip is necessary -/

theorem split_at_first (c : Char) (l : List Char) (h : c ∈ l) :
    ∃ S R, l = S ++ c :: R ∧ c ∉ S := by
  induction l with
  | nil => simp at h
  | cons x xs ih =>
    by_cases hx : x = c
    · exact ⟨[], xs, by simp [hx], by simp⟩
    · have hmem : c ∈ xs := by
        rcases List.mem_cons.mp h with h1 | h1
        · exact absurd h1.symm hx
        · exact h1
      obtain ⟨S, R, hl, hS⟩ := ih hmem
      refine ⟨x :: S, R, by simp [hl], ?_⟩
      intro hc
      rcases List.mem_cons.mp hc with h1 | h1
      · exact hx h1.symm
      · exact hS h1

/-- An opening bracket at the cursor with no closing bracket after it: the field is empty
and the end cursor becomes `npos`. -/
theorem GetContentFromBrackets_unclosed (pre F : List Char) (e : Nat) (hF : ']' ∉ F) :
    GetContentFromBrackets (pre ++ '[' :: F) pre.length e = .ok ([], npos) := by
  have hfind : find_first_of (pre ++ '[' :: F) ']' pre.length = npos := by
    have h2 : ']' ∉ '[' :: F := by simp [hF]
    simp [find_first_of, firstIndex_eq_none_of_not_mem ']' _ h2]
  unfold GetContentFromBrackets
  rw [at_append_cons, hfind]
  simp [bind, Except.bind, pure, Except.pure]

/-- Whenever the body begins with `[`, decoding the string built by the send path does
not give the tag and body back. -/
theorem roundtrip_fails_of_body_opens_bracket (T B : Str) (hT : ']' ∉ T)
    (hlen : (OutMessage T B).length ≤ 128) (hB : B.head? = some '[') :
    ParseIncomingMessage (OutMessage T B)
      ≠ .ok { PluginClassName := T, Sender := 0, MessageContent := B } := by
  obtain ⟨B2, rfl⟩ : ∃ B2, B = '[' :: B2 := by
    cases B with
    | nil => simp at hB
    | cons c cs => exact ⟨cs, by simp at hB; rw [hB]⟩
  have hl : (OutMessage T ('[' :: B2)).length = T.length + B2.length + 3 := by
    simp [OutMessage]; omega
  by_cases hclose : ']' ∈ B2
  · obtain ⟨S, R, rfl, hS⟩ := split_at_first ']' B2 hclose
    have hmsg : OutMessage T ('[' :: (S ++ ']' :: R)) = IncomingFormat T S R := by
      simp [OutMessage, IncomingFormat]
    have h := ParseIncomingMessage_two_fields T S R hT hS
      (by rw [← hmsg]; unfold npos SIZE_MOD; omega)
    rw [hmsg, h]
    intro hEq
    have hc := congrArg (fun d => d.MessageContent.length) (Except.ok.inj hEq)
    simp only [List.length_take, List.length_cons, List.length_append] at hc
    omega
  · have hmsg : OutMessage T ('[' :: B2) = ('[' :: (T ++ [']'])) ++ '[' :: B2 := by
      simp [OutMessage]
    have hmsg0 : OutMessage T ('[' :: B2) = [] ++ '[' :: (T ++ ']' :: ('[' :: B2)) := by
      simp [OutMessage]
    have h1 := GetContentFromBrackets_field [] T ('[' :: B2) 0 hT
      (by rw [← hmsg0]; unfold npos SIZE_MOD; omega)
    rw [← hmsg0] at h1
    simp only [List.length_nil, Nat.zero_add] at h1
    have hcur : addSz (T.length + 1) 1 = ('[' :: (T ++ [']'])).length := by
      simp [addSz, SIZE_MOD]; omega
    have h2 : GetContentFromBrackets (OutMessage T ('[' :: B2)) (addSz (T.length + 1) 1)
        (T.length + 1) = .ok ([], npos) := by
      rw [hcur, hmsg]
      exact GetContentFromBrackets_unclosed _ B2 _ hclose
    have hwrap : addSz npos 1 = 0 := by decide
    have h3 : substr (OutMessage T ('[' :: B2)) 0 INT_MAX = .ok (OutMessage T ('[' :: B2)) := by
      simp only [substr, List.drop_zero]
      rw [List.take_of_length_le (by unfold INT_MAX; omega)]
      simp
    unfold ParseIncomingMessage
    simp only [h1, h2, hwrap, h3, bind, Except.bind, pure, Except.pure]
    intro hEq
    have hc := congrArg (fun d => d.MessageContent.length) (Except.ok.inj hEq)
    simp only [hl, List.length_cons] at hc
    omega

/-! ## Sender field decoding (C11) -/

theorem digitChar_decimal (m : Nat) (h : m < 10) :
    (Nat.digitChar m).isDigit = true ∧ digitVal (Nat.digitChar m) = m ∧
      isSpaceC (Nat.digitChar m) = false ∧ Nat.digitChar m ≠ '-' ∧ Nat.digitChar m ≠ '+' := by
  interval_cases m <;> decide

theorem digitsVal_append_singleton (ds : List Char) (d : Char) :
    digitsVal (ds ++ [d]) = 10 * digitsVal ds + digitVal d := by
  simp [digitsVal, List.foldl_append]

/-- The digits produced by `Nat.toDigitsCore` in base 10, given enough fuel, are a
non-empty run of decimal digit characters whose value is the number. -/
theorem toDigitsCore_decimal (fuel : Nat) :
    ∀ (n : Nat) (ds : List Char), n < fuel →
      ∃ run, Nat.toDigitsCore 10 fuel n ds = run ++ ds ∧ run ≠ [] ∧
        (∀ c ∈ run, c.isDigit = true) ∧ digitsVal run = n := by
  induction fuel with
  | zero => intro n ds h; omega
  | succ fuel ih =>
    intro n ds hfuel
    have hd := digitChar_decimal (n % 10) (Nat.mod_lt n (by decide))
    by_cases hq : n / 10 = 0
    · refine ⟨[Nat.digitChar (n % 10)], by simp [Nat.toDigitsCore, hq], by simp, ?_, ?_⟩
      · intro c hc
        rw [List.mem_singleton.mp hc]
        exact hd.1
      · simp only [digitsVal, List.foldl_cons, List.foldl_nil, hd.2.1]
        omega
    · obtain ⟨run, hrun, _, hdig, hval⟩ :=
        ih (n / 10) (Nat.digitChar (n % 10) :: ds) (by omega)
      refine ⟨run ++ [Nat.digitChar (n % 10)], by simp [Nat.toDigitsCore, hq, hrun], by simp,
        ?_, ?_⟩
      · intro c hc
        rcases List.mem_append.mp hc with h1 | h1
        · exact hdig c h1
        · rw [List.mem_singleton.mp h1]
          exact hd.1
      · rw [digitsVal_append_singleton, hval, hd.2.1]
        omega

/-- The decimal representation of `n` is a non-empty run of digits of value `n`. -/
theorem repr_decimal (n : Nat) :
    (Nat.repr n).toList ≠ [] ∧ (∀ c ∈ (Nat.repr n).toList, c.isDigit = true) ∧
      digitsVal (Nat.repr n).toList = n := by
  obtain ⟨run, hrun, hne, hdig, hval⟩ := toDigitsCore_decimal (n + 1) n [] (by omega)
  have h : (Nat.repr n).toList = run := by
    simp [Nat.repr, Nat.toDigits, hrun, List.asString]
  rw [h]
  exact ⟨hne, hdig, hval⟩

theorem isDigit_facts (c : Char) (h : c.isDigit = true) :
    isSpaceC c = false ∧ c ≠ '-' ∧ c ≠ '+' := by
  refine ⟨?_, ?_, ?_⟩
  · simp only [isSpaceC, Bool.or_eq_false_iff, decide_eq_false_iff_not]
    refine ⟨⟨⟨⟨⟨?_, ?_⟩, ?_⟩, ?_⟩, ?_⟩, ?_⟩ <;> (intro hc; rw [hc] at h; revert h; decide)
  · intro hc; rw [hc] at h; revert h; decide
  · intro hc; rw [hc] at h; revert h; decide

/-- Extraction from a non-empty run of decimal digits whose value fits in a `uintptr_t`
gives that value. -/
theorem streamExtract_digits (ds : List Char) (hne : ds ≠ [])
    (hdig : ∀ c ∈ ds, c.isDigit = true) (hfit : digitsVal ds < SIZE_MOD) :
    streamExtract ds = digitsVal ds := by
  cases ds with
  | nil => exact absurd rfl hne
  | cons c cs =>
    have hc := isDigit_facts c (hdig c (by simp))
    have htake : List.takeWhile Char.isDigit (c :: cs) = c :: cs :=
      List.takeWhile_eq_self_iff.mpr hdig
    have hdrop : List.dropWhile isSpaceC (c :: cs) = c :: cs := by
      simp [List.dropWhile, hc.1]
    unfold streamExtract
    rw [hdrop]
    split
    · rename_i heq; exact absurd heq (by simp)
    · rename_i heq; exact absurd (List.cons.inj heq).1 hc.2.1
    · rename_i heq; exact absurd (List.cons.inj heq).1 hc.2.2
    · rw [htake]
      simp [convertField, Nat.not_le.mpr hfit]

/-- C11: `GetSenderPri` returns the null identity (address 0) for the empty string and for
`"0"`, and for every natural number `n` with `0 < n < 2 ^ 64` it returns `n` on the
base-10 decimal representation of `n`. -/
theorem GetSenderPri_decimal (n : Nat) (hpos : 0 < n) (hlt : n < 2 ^ 64) :
    GetSenderPri [] = 0 ∧ GetSenderPri "0".toList = 0 ∧
    GetSenderPri (Nat.repr n).toList = n := by
  obtain ⟨hne, hdig, hval⟩ := repr_decimal n
  refine ⟨by decide, by decide, ?_⟩
  have hzero : (Nat.repr n).toList ≠ ['0'] := by
    intro h
    rw [h] at hval
    have : digitsVal ['0'] = 0 := by decide
    omega
  have hfit : digitsVal (Nat.repr n).toList < SIZE_MOD := by
    rw [hval]
    unfold SIZE_MOD
    omega
  simp only [GetSenderPri, hne, hzero, ne_eq, not_false_eq_true, and_self, if_true]
  rw [streamExtract_digits _ hne hdig hfit, hval]

/-- Instances of C11: the addresses 12345 and `2 ^ 64 - 1`. -/
theorem GetSenderPri_decimal_witness :
    GetSenderPri (Nat.repr 12345).toList = 12345 ∧
    GetSenderPri (Nat.repr 18446744073709551615).toList = 18446744073709551615 :=
  ⟨(GetSenderPri_decimal 12345 (by decide) (by decide)).2.2,
   (GetSenderPri_decimal 18446744073709551615 (by decide) (by decide)).2.2⟩

/-! ## Contract validation and the probe step (C12, C13, C14) -/

theorem IsNetcodeLoaded_of_listed (env : Env) (hmgr : env.pluginManagerAddress ≠ 0)
    (hlisted : "NetcodePlugin".toList ∈ env.loadedPlugins) : IsNetcodeLoaded env
      = (true, [Event.GetPluginManager]) := by
  have hany : env.loadedPlugins.any (fun ThisPlugin => ThisPlugin = "NetcodePlugin".toList)
      = true := by
    rw [List.any_eq_true]
    exact ⟨_, hlisted, by simp⟩
  simp only [IsNetcodeLoaded, hmgr, if_false, hany]

theorem IsNetcodeLoaded_of_not_listed (env : Env)
    (h : env.pluginManagerAddress = 0 ∨ "NetcodePlugin".toList ∉ env.loadedPlugins) :
    IsNetcodeLoaded env = (false, [Event.GetPluginManager]) := by
  by_cases hmgr : env.pluginManagerAddress = 0
  · simp only [IsNetcodeLoaded, hmgr, if_true]
  · have hnl := h.resolve_left hmgr
    have hany : env.loadedPlugins.any (fun ThisPlugin => ThisPlugin = "NetcodePlugin".toList)
        = false := by
      rw [List.any_eq_false]
      intro x hx hxe
      exact hnl (by rw [← of_decide_eq_true hxe]; exact hx)
    simp only [IsNetcodeLoaded, hmgr, if_false, hany]

/-- A probing invocation that finds NetcodePlugin loaded runs the contract validation on
the state with the incremented attempt counter, after the readiness log line and the
registry query. -/
theorem NetcodeLoadLoop_probing_loaded (env : Env) (st : Manager) (b : Bool)
    (hnot : st.bIsGood = false)
    (hbudget : (if b = true then 0 else st.LoadAttempts) + 1 < 20)
    (hloaded : IsNetcodeLoaded env = (true, [Event.GetPluginManager])) :
    NetcodeLoadLoop env st b =
      { state := (OnSuccessfulLoadDetection env
          { st with LoadAttempts := (if b = true then 0 else st.LoadAttempts) + 1 }).state
        events := (CheckIfGood st FUNCTION_NetcodeLoadLoop).2 ++ [Event.GetPluginManager] ++
          (OnSuccessfulLoadDetection env
            { st with LoadAttempts := (if b = true then 0 else st.LoadAttempts) + 1 }).events
        fault := (OnSuccessfulLoadDetection env
          { st with LoadAttempts := (if b = true then 0 else st.LoadAttempts) + 1 }).fault } := by
  have hb : ¬ (if b = true then 0 else st.LoadAttempts) + 1 ≥ 20 := by omega
  have hg : (CheckIfGood st FUNCTION_NetcodeLoadLoop).1 = false := by
    simp [CheckIfGood, hnot]
  simp only [NetcodeLoadLoop, hg, hb, hloaded, if_true, if_false, Bool.false_eq_true]

/-- C12: on a probing invocation of the load loop (not Ready, attempt budget not
exhausted) where NetcodePlugin is in the loaded-plugin list and the three cvars
`NETCODE_Log_Level`, `NETCODE_Message_In`, `NETCODE_Message_Out` exist, the manager binds
the log-level handle, registers exactly one change subscription, on `NETCODE_Message_In`,
sets `bIsGood`, issues no command and schedules no retry. -/
theorem contract_validation_success (env : Env) (st : Manager) (b : Bool)
    (hnot : st.bIsGood = false)
    (hbudget : (if b = true then 0 else st.LoadAttempts) + 1 < 20)
    (hmgr : env.pluginManagerAddress ≠ 0)
    (hlisted : "NetcodePlugin".toList ∈ env.loadedPlugins)
    (hlevel : env.cvarIsNull CVAR_LOG_LEVEL = false)
    (hin : env.cvarIsNull CVAR_MESSAGE_IN = false)
    (hout : env.cvarIsNull CVAR_MESSAGE_OUT = false) :
    (NetcodeLoadLoop env st b).state.bIsGood = true ∧
    (NetcodeLoadLoop env st b).state.CvarLogLevel = some (env.boundLogLevel 1) ∧
    (NetcodeLoadLoop env st b).bindings = [Event.bindTo CVAR_LOG_LEVEL] ∧
    (NetcodeLoadLoop env st b).subscriptions = [Event.addOnValueChanged CVAR_MESSAGE_IN] ∧
    (NetcodeLoadLoop env st b).commands = [] ∧
    (NetcodeLoadLoop env st b).retries = 0 ∧
    (NetcodeLoadLoop env st b).fault = none := by
  rw [NetcodeLoadLoop_probing_loaded env st b hnot hbudget
    (IsNetcodeLoaded_of_listed env hmgr hlisted)]
  simp only [OnSuccessfulLoadDetection, hlevel, hin, hout, NETLOGA, NETLOG, CheckIfGood, hnot]
  by_cases hl : env.boundLogLevel 1 > 0 <;>
    simp [hl, Run.bindings, Run.subscriptions, Run.commands, Run.retries, Event.isBindTo,
      Event.isSubscribe, Event.isCommand, Event.isSetTimeout]

/-- Instance of C12: the construction of an instance while NetcodePlugin is loaded. -/
theorem contract_validation_success_witness :
    (NetcodeLoadLoop (loadedEnv []) (freshManager "Chat".toList) true).state.bIsGood = true ∧
    (NetcodeLoadLoop (loadedEnv []) (freshManager "Chat".toList) true).subscriptions
      = [Event.addOnValueChanged CVAR_MESSAGE_IN] ∧
    (NetcodeLoadLoop (loadedEnv []) (freshManager "Chat".toList) true).commands = [] ∧
    (NetcodeLoadLoop (loadedEnv []) (freshManager "Chat".toList) true).retries = 0 :=
  have h := contract_validation_success (loadedEnv []) (freshManager "Chat".toList) true
    (by decide) (by decide) (by decide) (by decide) (by decide) (by decide) (by decide)
  ⟨h.1, h.2.2.2.1, h.2.2.2.2.1, h.2.2.2.2.2.1⟩

/-- C13, as stated, fails: NetcodePlugin is loaded and exposes `NETCODE_Log_Level` but not
`NETCODE_Message_In`, and the binding leaves the level 0 in the handle. The probing
invocation then logs only the readiness line of `CheckIfGood`: the line about the missing
cvar goes through `NETLOGA`, which logs only when the level is above 0. -/
theorem missing_cvar_not_logged_at_level_0 :
    (IsNetcodeLoaded (missingCvarEnv CVAR_MESSAGE_IN 0)).1 = true ∧
    (missingCvarEnv CVAR_MESSAGE_IN 0).cvarIsNull CVAR_MESSAGE_IN = true ∧
    (NetcodeLoadLoop (missingCvarEnv CVAR_MESSAGE_IN 0) (freshManager "Chat".toList) true).logs
      = [Event.log ("NetcodeManager function (".toList ++ FUNCTION_NetcodeLoadLoop
          ++ ") failed. NetcodePlugin is not loaded.".toList)] ∧
    (NetcodeLoadLoop (missingCvarEnv CVAR_MESSAGE_IN 0) (freshManager "Chat".toList)
      true).state.bIsGood = false := by
  decide

/-- C13, amended: on a probing invocation where NetcodePlugin is loaded but at least one
of `NETCODE_Log_Level`, `NETCODE_Message_In`, `NETCODE_Message_Out` is missing, the manager
stays not Ready, registers no change subscription, issues no command and schedules no
retry. If `NETCODE_Log_Level` is missing it binds nothing and logs, after the readiness
line of `CheckIfGood`, the line `NetcodePlugin is loaded, but could not find cvar ` followed
by the name its cvar wrapper reports. Otherwise it binds the log-level handle and, for the
first missing message cvar, logs that line through `NETLOGA`, that is only when the level
in the handle is above 0. -/
theorem contract_validation_failure (env : Env) (st : Manager) (b : Bool)
    (hnot : st.bIsGood = false)
    (hbudget : (if b = true then 0 else st.LoadAttempts) + 1 < 20)
    (hmgr : env.pluginManagerAddress ≠ 0)
    (hlisted : "NetcodePlugin".toList ∈ env.loadedPlugins)
    (hmissing : env.cvarIsNull CVAR_LOG_LEVEL = true ∨ env.cvarIsNull CVAR_MESSAGE_IN = true ∨
      env.cvarIsNull CVAR_MESSAGE_OUT = true) :
    (NetcodeLoadLoop env st b).state.bIsGood = false ∧
    (NetcodeLoadLoop env st b).subscriptions = [] ∧
    (NetcodeLoadLoop env st b).commands = [] ∧
    (NetcodeLoadLoop env st b).retries = 0 ∧
    (NetcodeLoadLoop env st b).fault = none ∧
    (env.cvarIsNull CVAR_LOG_LEVEL = true →
      (NetcodeLoadLoop env st b).bindings = [] ∧
      (NetcodeLoadLoop env st b).logs = (CheckIfGood st FUNCTION_NetcodeLoadLoop).2 ++
        [Event.log ("NetcodePlugin is loaded, but could not find cvar ".toList
          ++ env.getCVarName CVAR_LOG_LEVEL)]) ∧
    (env.cvarIsNull CVAR_LOG_LEVEL = false → env.cvarIsNull CVAR_MESSAGE_IN = true →
      (NetcodeLoadLoop env st b).bindings = [Event.bindTo CVAR_LOG_LEVEL] ∧
      (NetcodeLoadLoop env st b).logs = (CheckIfGood st FUNCTION_NetcodeLoadLoop).2 ++
        if env.boundLogLevel 1 > 0 then
          [Event.log ("(A: ".toList ++ (toString env.clock).toList ++
            ")   NetcodePlugin is loaded, but could not find cvar ".toList
            ++ env.getCVarName CVAR_MESSAGE_IN)]
        else []) ∧
    (env.cvarIsNull CVAR_LOG_LEVEL = false → env.cvarIsNull CVAR_MESSAGE_IN = false →
      (NetcodeLoadLoop env st b).bindings = [Event.bindTo CVAR_LOG_LEVEL] ∧
      (NetcodeLoadLoop env st b).logs = (CheckIfGood st FUNCTION_NetcodeLoadLoop).2 ++
        if env.boundLogLevel 1 > 0 then
          [Event.log ("(A: ".toList ++ (toString env.clock).toList ++
            ")   NetcodePlugin is loaded, but could not find cvar ".toList
            ++ env.getCVarName CVAR_MESSAGE_OUT)]
        else []) := by
  rw [NetcodeLoadLoop_probing_loaded env st b hnot hbudget
    (IsNetcodeLoaded_of_listed env hmgr hlisted)]
  cases hlevel : env.cvarIsNull CVAR_LOG_LEVEL
  · cases hin : env.cvarIsNull CVAR_MESSAGE_IN
    · have hout : env.cvarIsNull CVAR_MESSAGE_OUT = true := by
        rcases hmissing with h | h | h
        · rw [hlevel] at h; exact absurd h (by decide)
        · rw [hin] at h; exact absurd h (by decide)
        · exact h
      simp only [OnSuccessfulLoadDetection, hlevel, hin, hout, NETLOGA, NETLOG, CheckIfGood,
        hnot]
      by_cases hl : env.boundLogLevel 1 > 0 <;>
        simp [hl, hnot, Run.bindings, Run.subscriptions, Run.commands, Run.retries, Run.logs,
          Event.isBindTo, Event.isSubscribe, Event.isCommand, Event.isSetTimeout, Event.isLog]
    · simp only [OnSuccessfulLoadDetection, hlevel, hin, NETLOGA, NETLOG, CheckIfGood, hnot]
      by_cases hl : env.boundLogLevel 1 > 0 <;>
        simp [hl, hnot, Run.bindings, Run.subscriptions, Run.commands, Run.retries, Run.logs,
          Event.isBindTo, Event.isSubscribe, Event.isCommand, Event.isSetTimeout, Event.isLog]
  · simp [OnSuccessfulLoadDetection, hlevel, CheckIfGood, hnot, Run.bindings,
      Run.subscriptions, Run.commands, Run.retries, Run.logs, Event.isBindTo,
      Event.isSubscribe, Event.isCommand, Event.isSetTimeout, Event.isLog]

/-- Instance of the amended C13: `NETCODE_Message_In` is missing and the handle holds
level 1, so the line naming the cvar is logged. -/
theorem contract_validation_failure_witness :
    (NetcodeLoadLoop (missingCvarEnv CVAR_MESSAGE_IN 1) (freshManager "Chat".toList)
      true).state.bIsGood = false ∧
    (NetcodeLoadLoop (missingCvarEnv CVAR_MESSAGE_IN 1) (freshManager "Chat".toList)
      true).logs = (CheckIfGood (freshManager "Chat".toList) FUNCTION_NetcodeLoadLoop).2 ++
        [Event.log ("(A: 0)   NetcodePlugin is loaded, but could not find cvar ".toList
          ++ CVAR_MESSAGE_IN)] :=
  have h := contract_validation_failure (missingCvarEnv CVAR_MESSAGE_IN 1)
    (freshManager "Chat".toList) true (by decide) (by decide) (by decide) (by decide)
    (Or.inr (Or.inl (by decide)))
  ⟨h.1, (h.2.2.2.2.2.2.1 (by decide) (by decide)).2⟩

/-- C14: on every probing invocation where NetcodePlugin is not in the loaded-plugin list
(or the plugin manager is null), the manager issues exactly one command,
`plugin load NetcodePlugin` if `plugins/NetcodePlugin.dll` exists and `bpm_install 166`
otherwise, and schedules exactly one deferred `NetcodeLoadLoop(false)`, with delay 2;
`bIsGood` stays false. -/
theorem probe_step_when_absent (env : Env) (st : Manager) (b : Bool)
    (hnot : st.bIsGood = false)
    (hbudget : (if b = true then 0 else st.LoadAttempts) + 1 < 20)
    (habsent : env.pluginManagerAddress = 0 ∨ "NetcodePlugin".toList ∉ env.loadedPlugins) :
    (NetcodeLoadLoop env st b).commands =
      [Event.executeCommand
        (if DoesNetcodePluginExist env = true then "plugin load NetcodePlugin".toList
          else "bpm_install 166".toList) false] ∧
    (NetcodeLoadLoop env st b).events.filter Event.isSetTimeout = [Event.SetTimeout 2] ∧
    (NetcodeLoadLoop env st b).state.bIsGood = false ∧
    (NetcodeLoadLoop env st b).subscriptions = [] ∧
    (NetcodeLoadLoop env st b).fault = none := by
  have hb : ¬ (if b = true then 0 else st.LoadAttempts) + 1 ≥ 20 := by omega
  have hl := IsNetcodeLoaded_of_not_listed env habsent
  by_cases hfile : DoesNetcodePluginExist env = true <;>
    simp [NetcodeLoadLoop, CheckIfGood, hnot, hb, hl, hfile, Run.commands, Run.subscriptions,
      Event.isCommand, Event.isSetTimeout, Event.isSubscribe]

/-- Instances of C14: the file is on disk and the plugin is loaded by command; the file is
not on disk and the plugin is installed by command. -/
theorem probe_step_when_absent_witness :
    (NetcodeLoadLoop unloadedEnv (freshManager "Chat".toList) true).commands
      = [Event.executeCommand "plugin load NetcodePlugin".toList false] ∧
    (NetcodeLoadLoop absentEnv (freshManager "Chat".toList) true).commands
      = [Event.executeCommand "bpm_install 166".toList false] ∧
    (NetcodeLoadLoop absentEnv (freshManager "Chat".toList) true).events.filter
      Event.isSetTimeout = [Event.SetTimeout 2] :=
  have h1 := probe_step_when_absent unloadedEnv (freshManager "Chat".toList) true
    (by decide) (by decide) (Or.inr (by decide))
  have h2 := probe_step_when_absent absentEnv (freshManager "Chat".toList) true
    (by decide) (by decide) (Or.inr (by decide))
  ⟨h1.1, h2.1, h2.2.1⟩

/-! ## Ready is terminal (C15) and the log-level handle (C20) -/

theorem NETLOG_logs (tag : Char) (threshold : Int) (env : Env) (st : Manager) (x : Str)
    (logged : List Event) (h : NETLOG tag threshold env st x = .ok logged) :
    ∀ e ∈ logged, e.isLog = true := by
  unfold NETLOG at h
  cases hl : st.CvarLogLevel with
  | none => rw [hl] at h; cases h
  | some level =>
    rw [hl] at h
    by_cases hgt : level > threshold
    · simp only [hgt, if_true, Except.ok.injEq] at h
      subst h
      simp [Event.isLog]
    · simp only [hgt, if_false, Except.ok.injEq] at h
      subst h
      simp

theorem filter_subscribe_of_logs (l : List Event) (h : ∀ e ∈ l, e.isLog = true) :
    l.filter Event.isSubscribe = [] := by
  rw [List.filter_eq_nil_iff]
  intro e he
  have := h e he
  cases e <;> simp_all [Event.isLog, Event.isSubscribe]

theorem CheckIfGood_logs (st : Manager) (fn : Str) :
    ∀ e ∈ (CheckIfGood st fn).2, e.isLog = true := by
  unfold CheckIfGood
  split <;> simp [Event.isLog]

/-- `SendNewMessage` registers no subscription, in any state. -/
theorem SendNewMessage_subscriptions (env : Env) (st : Manager) (InMessage : Str) :
    (SendNewMessage env st InMessage).subscriptions = [] := by
  have hc := filter_subscribe_of_logs _ (CheckIfGood_logs st FUNCTION_SendNewMessage)
  simp only [SendNewMessage, Run.subscriptions]
  split
  · exact hc
  · split
    · exact hc
    · rename_i logged hlog
      have hl := filter_subscribe_of_logs logged (NETLOG_logs _ _ _ _ _ _ hlog)
      simp [List.filter_append, hc, hl, Event.isSubscribe]

/-- `ReceiveMessage` registers no subscription, in any state. -/
theorem ReceiveMessage_subscriptions (env : Env) (st : Manager) :
    (ReceiveMessage env st).subscriptions = [] := by
  have hc := filter_subscribe_of_logs _ (CheckIfGood_logs st FUNCTION_ReceiveMessage)
  simp only [ReceiveMessage, Run.subscriptions]
  split
  · exact hc
  · split
    · exact hc
    · rename_i logged hlog
      have hl := filter_subscribe_of_logs logged (NETLOG_logs _ _ _ _ _ _ hlog)
      split
      · simp [List.filter_append, hc, hl]
      · split
        · simp [List.filter_append, hc, hl]
        · split
          · simp [List.filter_append, hc, hl]
          · rename_i logged2 hlog2
            have hl2 := filter_subscribe_of_logs logged2
              (NETLOG_logs _ _ _ _ _ _ (by simpa [LogMessageData, NETLOGC] using hlog2))
            simp [List.filter_append, hc, hl, hl2, Event.isSubscribe]

/-- In the Ready state every invocation of the load loop returns at once: same state, no
call to any collaborator. -/
theorem NetcodeLoadLoop_of_good (env : Env) (st : Manager) (b : Bool)
    (hgood : st.bIsGood = true) :
    NetcodeLoadLoop env st b = { state := st, events := [], fault := none } := by
  simp [NetcodeLoadLoop, CheckIfGood, hgood]

/-- The contract validation from a state that is not Ready either registers nothing and
stays not Ready, or registers the one subscription and becomes Ready; it never faults. -/
theorem OnSuccessfulLoadDetection_outcome (env : Env) (st : Manager)
    (hnot : st.bIsGood = false) :
    (OnSuccessfulLoadDetection env st).fault = none ∧
    (((OnSuccessfulLoadDetection env st).subscriptions = [] ∧
        (OnSuccessfulLoadDetection env st).state.bIsGood = false) ∨
      ((OnSuccessfulLoadDetection env st).subscriptions
          = [Event.addOnValueChanged CVAR_MESSAGE_IN] ∧
        (OnSuccessfulLoadDetection env st).state.bIsGood = true)) := by
  cases hlevel : env.cvarIsNull CVAR_LOG_LEVEL
  · cases hin : env.cvarIsNull CVAR_MESSAGE_IN
    · cases hout : env.cvarIsNull CVAR_MESSAGE_OUT
      · simp only [OnSuccessfulLoadDetection, hlevel, hin, hout, NETLOGA, NETLOG]
        by_cases hl : env.boundLogLevel 1 > 0 <;>
          simp [hl, Run.subscriptions, Event.isSubscribe]
      · simp only [OnSuccessfulLoadDetection, hlevel, hin, hout, NETLOGA, NETLOG]
        by_cases hl : env.boundLogLevel 1 > 0 <;>
          simp [hl, hnot, Run.subscriptions, Event.isSubscribe]
    · simp only [OnSuccessfulLoadDetection, hlevel, hin, NETLOGA, NETLOG]
      by_cases hl : env.boundLogLevel 1 > 0 <;>
        simp [hl, hnot, Run.subscriptions, Event.isSubscribe]
  · simp [OnSuccessfulLoadDetection, hlevel, hnot, Run.subscriptions, Event.isSubscribe]

/-- The load loop from a state that is not Ready never faults, and it registers the one
subscription exactly when it makes the state Ready. -/
theorem NetcodeLoadLoop_outcome (env : Env) (st : Manager) (b : Bool)
    (hnot : st.bIsGood = false) :
    (NetcodeLoadLoop env st b).fault = none ∧
    (((NetcodeLoadLoop env st b).subscriptions = [] ∧
        (NetcodeLoadLoop env st b).state.bIsGood = false) ∨
      ((NetcodeLoadLoop env st b).subscriptions = [Event.addOnValueChanged CVAR_MESSAGE_IN] ∧
        (NetcodeLoadLoop env st b).state.bIsGood = true)) := by
  by_cases hb : (if b = true then 0 else st.LoadAttempts) + 1 ≥ 20
  · simp [NetcodeLoadLoop, CheckIfGood, hnot, hb, Run.subscriptions, Event.isSubscribe]
  · cases hl : (IsNetcodeLoaded env).1
    · by_cases hfile : DoesNetcodePluginExist env = true <;>
        simp [NetcodeLoadLoop, CheckIfGood, hnot, hb, hl, hfile, IsNetcodeLoaded_events,
          Run.subscriptions, Event.isSubscribe]
    · have hev : IsNetcodeLoaded env = (true, [Event.GetPluginManager]) := by
        rw [← hl, ← IsNetcodeLoaded_events env]
      rw [NetcodeLoadLoop_probing_loaded env st b hnot (by omega) hev]
      obtain ⟨hf, hcase⟩ := OnSuccessfulLoadDetection_outcome env
        { st with LoadAttempts := (if b = true then 0 else st.LoadAttempts) + 1 } hnot
      have hpre : List.filter Event.isSubscribe
          ((CheckIfGood st FUNCTION_NetcodeLoadLoop).2 ++ [Event.GetPluginManager]) = [] := by
        rw [List.filter_append,
          filter_subscribe_of_logs _ (CheckIfGood_logs st FUNCTION_NetcodeLoadLoop)]
        rfl
      refine ⟨hf, ?_⟩
      simp only [Run.subscriptions] at hcase ⊢
      rw [List.filter_append, hpre, List.nil_append]
      exact hcase

theorem at_fault (s : Str) (pos : Nat) (f : Fault) (h : at_ s pos = .error f) :
    f = Fault.out_of_range := by
  unfold at_ at h
  split at h
  · cases h
  · exact (Except.error.inj h).symm

theorem substr_fault (s : Str) (pos n : Nat) (f : Fault) (h : substr s pos n = .error f) :
    f = Fault.out_of_range := by
  unfold substr at h
  split at h
  · exact (Except.error.inj h).symm
  · cases h

theorem GetContentFromBrackets_fault (msg : Str) (start e : Nat) (f : Fault)
    (h : GetContentFromBrackets msg start e = .error f) : f = Fault.out_of_range := by
  unfold GetContentFromBrackets at h
  split at h
  · cases hat : at_ msg start with
    | error g =>
      rw [hat] at h
      simp only [bind, Except.bind] at h
      rw [← Except.error.inj h]
      exact at_fault _ _ _ hat
    | ok c =>
      rw [hat] at h
      simp only [bind, Except.bind, pure, Except.pure] at h
      split at h
      · split at h
        · cases hsub : substr msg (addSz start 1)
            (subSz (subSz (find_first_of msg ']' start) start) 1) with
          | error g =>
            rw [hsub] at h
            rw [← Except.error.inj h]
            exact substr_fault _ _ _ _ hsub
          | ok out => rw [hsub] at h; cases h
        · cases h
      · cases h
  · cases h

/-- The only fault `ParseIncomingMessage` can end with is `std::out_of_range`. -/
theorem ParseIncomingMessage_fault (msg : Str) (f : Fault)
    (h : ParseIncomingMessage msg = .error f) : f = Fault.out_of_range := by
  simp only [ParseIncomingMessage, bind, Except.bind, pure, Except.pure] at h
  cases h1 : GetContentFromBrackets msg 0 0 with
  | error g =>
    rw [h1] at h
    rw [← Except.error.inj h]
    exact GetContentFromBrackets_fault _ _ _ _ h1
  | ok p1 =>
    rw [h1] at h
    simp only at h
    cases h2 : GetContentFromBrackets msg (addSz p1.2 1) p1.2 with
    | error g =>
      rw [h2] at h
      rw [← Except.error.inj h]
      exact GetContentFromBrackets_fault _ _ _ _ h2
    | ok p2 =>
      rw [h2] at h
      simp only at h
      cases h3 : substr msg (addSz p2.2 1) INT_MAX with
      | error g =>
        rw [h3] at h
        rw [← Except.error.inj h]
        exact substr_fault _ _ _ _ h3
      | ok body => rw [h3] at h; cases h

theorem SendNewMessage_fault_of_allocated (env : Env) (st : Manager) (InMessage : Str)
    (h : LogLevelAllocated st) : (SendNewMessage env st InMessage).fault = none := by
  cases hg : st.bIsGood
  · simp [SendNewMessage, CheckIfGood, hg]
  · obtain ⟨level, hlevel⟩ := Option.ne_none_iff_exists'.mp (h hg)
    obtain ⟨logged, _, hrun⟩ := SendNewMessage_ready env st InMessage level hg hlevel
    rw [hrun]

theorem ReceiveMessage_fault_of_allocated (env : Env) (st : Manager)
    (h : LogLevelAllocated st) : (ReceiveMessage env st).fault ≠ some Fault.null_deref := by
  cases hg : st.bIsGood
  · simp [ReceiveMessage, CheckIfGood, hg]
  · obtain ⟨level, hlevel⟩ := Option.ne_none_iff_exists'.mp (h hg)
    obtain ⟨logged, hlog, _⟩ := NETLOG_ok_of_level 'C' 2 env st
      ("Receiving message: ".toList ++ env.getStringValue CVAR_MESSAGE_IN) level hlevel
    simp only [ReceiveMessage, CheckIfGood, hg, NETLOGC, hlog]
    cases hparse : ParseIncomingMessage (env.getStringValue CVAR_MESSAGE_IN) with
    | error f =>
      have hf := ParseIncomingMessage_fault _ f hparse
      simp [hf]
    | ok d =>
      obtain ⟨logged2, hlog2, _⟩ := LogMessageData_ok_of_level env st d level hlevel
      by_cases hd : d.PluginClassName = st.className <;> simp [hd, hlog2]

theorem NetcodeLoadLoop_fault (env : Env) (st : Manager) (b : Bool) :
    (NetcodeLoadLoop env st b).fault = none := by
  cases hg : st.bIsGood
  · exact (NetcodeLoadLoop_outcome env st b hg).1
  · rw [NetcodeLoadLoop_of_good env st b hg]

theorem Op.run_allocated (st : Manager) (op : Op) (h : LogLevelAllocated st) :
    LogLevelAllocated (op.run st).state ∧ (op.run st).fault ≠ some Fault.null_deref := by
  cases op with
  | send env InMessage =>
    simp only [Op.run, SendNewMessage_state, SendNewMessage_fault_of_allocated env st _ h]
    exact ⟨h, by simp⟩
  | receive env =>
    simp only [Op.run, ReceiveMessage_state]
    exact ⟨h, ReceiveMessage_fault_of_allocated env st h⟩
  | loadLoop env b =>
    simp only [Op.run, NetcodeLoadLoop_fault]
    exact ⟨NetcodeLoadLoop_allocated env st b h, by simp⟩
  | logLevelChanged level =>
    simp only [Op.run]
    refine ⟨?_, by simp⟩
    cases hl : st.CvarLogLevel with
    | none => simpa [LogLevelAllocated, hl] using h
    | some l => simp [LogLevelAllocated]

theorem runOps_allocated (ops : List Op) :
    ∀ st : Manager, LogLevelAllocated st →
      ∀ r ∈ runOps st ops, LogLevelAllocated r.state ∧ r.fault ≠ some Fault.null_deref := by
  induction ops with
  | nil => intro st _ r hr; simp [runOps] at hr
  | cons op ops ih =>
    intro st h r hr
    simp only [runOps, List.mem_cons] at hr
    rcases hr with rfl | hr
    · exact Op.run_allocated st op h
    · exact ih _ (Op.run_allocated st op h).1 r hr

theorem Op.run_of_good (st : Manager) (op : Op) (hgood : st.bIsGood = true) :
    (op.run st).state.bIsGood = true ∧ (op.run st).subscriptions = [] := by
  cases op with
  | send env InMessage =>
    simp only [Op.run, SendNewMessage_state, SendNewMessage_subscriptions]
    exact ⟨hgood, trivial⟩
  | receive env =>
    simp only [Op.run, ReceiveMessage_state, ReceiveMessage_subscriptions]
    exact ⟨hgood, trivial⟩
  | loadLoop env b =>
    simp only [Op.run, NetcodeLoadLoop_of_good env st b hgood]
    exact ⟨hgood, rfl⟩
  | logLevelChanged level =>
    simp only [Op.run]
    refine ⟨?_, rfl⟩
    cases st.CvarLogLevel <;> exact hgood

/-- Each step uses up the one subscription an instance may register: the subscriptions of
the step plus what remains afterwards is at most what remained before. -/
theorem Op.run_subscription_budget (st : Manager) (op : Op) :
    (op.run st).subscriptions.length + (if (op.run st).state.bIsGood = true then 0 else 1)
      ≤ (if st.bIsGood = true then 0 else 1) := by
  cases hg : st.bIsGood
  · cases op with
    | send env InMessage =>
      simp [Op.run, SendNewMessage_state, SendNewMessage_subscriptions, hg]
    | receive env =>
      simp [Op.run, ReceiveMessage_state, ReceiveMessage_subscriptions, hg]
    | loadLoop env b =>
      simp only [Op.run]
      rcases (NetcodeLoadLoop_outcome env st b hg).2 with ⟨h1, h2⟩ | ⟨h1, h2⟩ <;>
        simp [h1, h2]
    | logLevelChanged level =>
      have hstate : (Op.run st (Op.logLevelChanged level)).state.bIsGood = false := by
        simp only [Op.run]
        cases st.CvarLogLevel <;> exact hg
      have hsub : (Op.run st (Op.logLevelChanged level)).subscriptions = [] := rfl
      rw [hstate, hsub]
      simp
  · obtain ⟨h1, h2⟩ := Op.run_of_good st op hg
    simp [h1, h2]

theorem runOps_of_good (ops : List Op) :
    ∀ st : Manager, st.bIsGood = true →
      ∀ r ∈ runOps st ops, r.state.bIsGood = true ∧ r.subscriptions = [] := by
  induction ops with
  | nil => intro st _ r hr; simp [runOps] at hr
  | cons op ops ih =>
    intro st h r hr
    simp only [runOps, List.mem_cons] at hr
    rcases hr with rfl | hr
    · exact Op.run_of_good st op h
    · exact ih _ (Op.run_of_good st op h).1 r hr

theorem runOps_subscription_budget (ops : List Op) :
    ∀ st : Manager, ((runOps st ops).map (fun r => r.subscriptions.length)).sum
      ≤ (if st.bIsGood = true then 0 else 1) := by
  induction ops with
  | nil => intro st; simp [runOps]
  | cons op ops ih =>
    intro st
    have h1 := Op.run_subscription_budget st op
    have h2 := ih (op.run st).state
    simp only [runOps, List.map_cons, List.sum_cons]
    omega

/-- C15: once `bIsGood` is true, `SendNewMessage`, `ReceiveMessage` and `NetcodeLoadLoop`
(with either argument) leave it true, and `NetcodeLoadLoop` returns at once: the state,
its attempt counter included, is unchanged and no collaborator is called (no registry
query, command, retry, subscription or log line). Hence along every sequence of steps
from a Ready state the state stays Ready and nothing is subscribed, and in the whole life
of an instance, from its construction on, at most one subscription is registered. -/
theorem Ready_is_terminal (st : Manager) (hgood : st.bIsGood = true) (env : Env)
    (InMessage : Str) (b : Bool) (ops : List Op) (env0 : Env) (className : Str)
    (attempts : Int) :
    (SendNewMessage env st InMessage).state.bIsGood = true ∧
    (ReceiveMessage env st).state.bIsGood = true ∧
    NetcodeLoadLoop env st b = { state := st, events := [], fault := none } ∧
    (∀ r ∈ runOps st ops, r.state.bIsGood = true ∧ r.subscriptions = []) ∧
    ((history env0 className attempts ops).map (fun r => r.subscriptions.length)).sum ≤ 1 := by
  refine ⟨by rw [SendNewMessage_state]; exact hgood, by rw [ReceiveMessage_state]; exact hgood,
    NetcodeLoadLoop_of_good env st b hgood, runOps_of_good ops st hgood, ?_⟩
  have h1 := Op.run_subscription_budget
    { className := className, bIsGood := false, CvarLogLevel := none, LoadAttempts := attempts }
    (Op.loadLoop env0 true)
  have h2 := runOps_subscription_budget ops (construct env0 className attempts).state
  simp only [Op.run, Bool.false_eq_true, if_false] at h1
  simp only [history, List.map_cons, List.sum_cons]
  simp only [construct] at h2 ⊢
  omega

/-- Instance of C15: an instance constructed while NetcodePlugin is loaded is Ready; a
fired retry, a reset of the loop and a send leave it Ready and subscribe nothing more. -/
theorem Ready_is_terminal_witness :
    NetcodeLoadLoop (loadedEnv []) (readyManager "Chat".toList) false
      = { state := readyManager "Chat".toList, events := [], fault := none } ∧
    ((history (loadedEnv []) "Chat".toList 0
        [Op.loadLoop (loadedEnv []) false, Op.loadLoop (loadedEnv []) true,
         Op.send (loadedEnv []) "hi".toList]).map
      (fun r => r.subscriptions.length)).sum ≤ 1 :=
  have h := Ready_is_terminal (readyManager "Chat".toList) (by decide) (loadedEnv [])
    "hi".toList false
    [Op.loadLoop (loadedEnv []) false, Op.loadLoop (loadedEnv []) true,
     Op.send (loadedEnv []) "hi".toList] (loadedEnv []) "Chat".toList 0
  ⟨h.2.2.1, h.2.2.2.2⟩

/-- C20: in every state an instance reaches from its construction through any sequence of
load-loop invocations, sends, receives and changes of the bound cvar, `bIsGood = true`
implies that `CvarLogLevel` is allocated, and no run ends by dereferencing a null
`CvarLogLevel`: every `NETLOGA` / `NETLOGC` is evaluated after the allocation. -/
theorem log_level_handle_allocated (env : Env) (className : Str) (attempts : Int)
    (ops : List Op) (r : Run) (hr : r ∈ history env className attempts ops) :
    (r.state.bIsGood = true → ∃ level, r.state.CvarLogLevel = some level) ∧
    r.fault ≠ some Fault.null_deref := by
  have hfresh : LogLevelAllocated
      { className := className, bIsGood := false, CvarLogLevel := none,
        LoadAttempts := attempts } := by
    simp [LogLevelAllocated]
  have h0 : LogLevelAllocated (construct env className attempts).state :=
    NetcodeLoadLoop_allocated env _ true hfresh
  have hall : LogLevelAllocated r.state ∧ r.fault ≠ some Fault.null_deref := by
    simp only [history, List.mem_cons] at hr
    rcases hr with rfl | hr
    · refine ⟨h0, ?_⟩
      simp [construct, NetcodeLoadLoop_fault]
    · exact runOps_allocated ops _ h0 r hr
  exact ⟨fun hg => Option.ne_none_iff_exists'.mp (hall.1 hg), hall.2⟩

/-- Instance of C20: the construction of an instance while NetcodePlugin is loaded, which
evaluates `NETLOGA`, and a later receive, which evaluates `NETLOGC`. -/
theorem log_level_handle_allocated_witness :
    (construct (loadedEnv []) "Chat".toList 0).fault ≠ some Fault.null_deref ∧
    (ReceiveMessage (loadedEnv "[Chat][1]x".toList)
      (construct (loadedEnv []) "Chat".toList 0).state).fault ≠ some Fault.null_deref :=
  ⟨(log_level_handle_allocated (loadedEnv []) "Chat".toList 0 [] _
      (List.mem_cons_self _ _)).2,
   (log_level_handle_allocated (loadedEnv []) "Chat".toList 0
      [Op.receive (loadedEnv "[Chat][1]x".toList)]
      (ReceiveMessage (loadedEnv "[Chat][1]x".toList)
        (construct (loadedEnv []) "Chat".toList 0).state)
      (List.mem_cons_of_mem _ (List.mem_cons_self _ _))).2⟩

/-! ## Behaviour of the decoder on messages outside the incoming format (C16 to C19) -/

/-- A message that begins with neither an opening bracket nor, at the second position, an
opening bracket: both field lookups fail and the body starts at position 1. -/
theorem ParseIncomingMessage_unframed (c : Char) (rest : Str) (hc : c ≠ '[')
    (hrest : rest.head? ≠ some '[') :
    ParseIncomingMessage (c :: rest)
      = .ok { PluginClassName := [], Sender := 0, MessageContent := rest.take INT_MAX } := by
  have h1 : GetContentFromBrackets (c :: rest) 0 0 = .ok ([], 0) :=
    GetContentFromBrackets_no_open [] (c :: rest) 0 (by simpa using hc)
  have hcur : addSz 0 1 = [c].length := (by decide : addSz 0 1 = 1)
  have h2 : GetContentFromBrackets (c :: rest) (addSz 0 1) 0 = .ok ([], 0) := by
    rw [hcur]
    exact GetContentFromBrackets_no_open [c] rest 0 hrest
  have h3 : substr (c :: rest) (addSz 0 1) INT_MAX = .ok (rest.take INT_MAX) := by
    rw [hcur]
    exact substr_drop_append [c] rest INT_MAX
  unfold ParseIncomingMessage
  simp [h1, h2, h3, GetSenderPri, bind, Except.bind, pure, Except.pure]

/-- A message that begins with an opening bracket and has no closing bracket: both field
lookups leave the end cursor at `npos`, and the body starts at position 0. -/
theorem ParseIncomingMessage_unclosed (F : Str) (hF : ']' ∉ F) :
    ParseIncomingMessage ('[' :: F)
      = .ok { PluginClassName := [], Sender := 0,
              MessageContent := ('[' :: F).take INT_MAX } := by
  have hwrap : addSz npos 1 = 0 := by decide
  have h1 : ∀ e, GetContentFromBrackets ('[' :: F) 0 e = .ok ([], npos) :=
    fun e => GetContentFromBrackets_unclosed [] F e hF
  have h3 : substr ('[' :: F) 0 INT_MAX = .ok (('[' :: F).take INT_MAX) := by
    simp [substr]
  unfold ParseIncomingMessage
  simp only [h1, hwrap, h3, GetSenderPri, bind, Except.bind, pure, Except.pure]
  simp

/-- C16, as stated, fails: with the empty tag and a body of `2 ^ 31` characters `a`, which
does not begin with `[`, the content returned is cut to `INT_MAX = 2 ^ 31 - 1` characters
by `substr(StartPoint, INT_MAX)`. -/
theorem long_body_truncated_after_tag :
    (List.replicate 2147483648 'a').head? ≠ some '[' ∧
    ParseIncomingMessage (OutMessage [] (List.replicate 2147483648 'a'))
      = .ok { PluginClassName := [], Sender := 0,
              MessageContent := List.replicate 2147483647 'a' } ∧
    ParseIncomingMessage (OutMessage [] (List.replicate 2147483648 'a'))
      ≠ .ok { PluginClassName := [], Sender := 0,
              MessageContent := List.replicate 2147483648 'a' } := by
  have hhead : (List.replicate 2147483648 'a').head? ≠ some '[' := by
    rw [show (2147483648 : Nat) = 2147483647 + 1 from rfl, List.replicate_succ]
    decide
  have hlen : (OutMessage [] (List.replicate 2147483648 'a')).length < npos := by
    simp only [OutMessage, List.length_append, List.length_replicate, npos, SIZE_MOD]
    simp
  have h := ParseIncomingMessage_one_field [] (List.replicate 2147483648 'a') (by simp)
    hhead hlen
  have htake : List.take INT_MAX (List.replicate 2147483648 'a')
      = List.replicate 2147483647 'a' := by
    rw [List.take_replicate]
    rfl
  rw [htake] at h
  refine ⟨hhead, h, ?_⟩
  rw [h]
  intro hEq
  have hc := congrArg (fun d => d.MessageContent.length) (Except.ok.inj hEq)
  simp only [List.length_replicate] at hc
  omega

/-- C16, amended: for every tag `T` containing neither `[` nor `]` and every body `B` of at
most `INT_MAX` characters that is empty or whose first character is not `[`, in a message
of valid size, `ParseIncomingMessage("[" + T + "]" + B)` returns `PluginClassName = T`, a
null sender and `MessageContent = B`. -/
theorem restricted_roundtrip (T B : Str) (hT1 : '[' ∉ T) (hT2 : ']' ∉ T)
    (hB : B = [] ∨ B.head? ≠ some '[') (hlen : B.length ≤ INT_MAX)
    (hsize : ("[".toList ++ T ++ "]".toList ++ B).length < npos) :
    ParseIncomingMessage ("[".toList ++ T ++ "]".toList ++ B)
      = .ok { PluginClassName := T, Sender := 0, MessageContent := B } := by
  have _ := hT1
  have hhead : B.head? ≠ some '[' := by
    rcases hB with rfl | h
    · simp
    · exact h
  have h := ParseIncomingMessage_one_field T B hT2 hhead hsize
  rw [List.take_of_length_le hlen] at h
  exact h

/-- Instances of the amended C16: an empty body and a body with brackets after its first
character. -/
theorem restricted_roundtrip_witness :
    ParseIncomingMessage "[Chat]".toList
      = .ok { PluginClassName := "Chat".toList, Sender := 0, MessageContent := [] } ∧
    ParseIncomingMessage "[Chat]a[1]b".toList
      = .ok { PluginClassName := "Chat".toList, Sender := 0,
              MessageContent := "a[1]b".toList } :=
  ⟨restricted_roundtrip "Chat".toList [] (by decide) (by decide) (Or.inl rfl) (by decide)
      (by decide),
   restricted_roundtrip "Chat".toList "a[1]b".toList (by decide) (by decide)
      (Or.inr (by decide)) (by decide) (by decide)⟩

/-- C17: for every string of length at least 1 (and of valid size, below `npos`), both
field lookups return, the body cursor `EndPoint + 1` computed after them in `size_t`
arithmetic is at most the message length, and `ParseIncomingMessage` returns normally. -/
theorem body_cursor_in_range (msg : Str) (hne : 1 ≤ msg.length) (hsize : msg.length < npos) :
    ∃ out1 e1 out2 e2,
      GetContentFromBrackets msg 0 0 = .ok (out1, e1) ∧
      GetContentFromBrackets msg (addSz e1 1) e1 = .ok (out2, e2) ∧
      addSz e2 1 ≤ msg.length ∧
      ParseIncomingMessage msg
        = .ok { PluginClassName := out1, Sender := GetSenderPri out2,
                MessageContent := (msg.drop (addSz e2 1)).take INT_MAX } := by
  obtain ⟨out1, e1, h1, hr1⟩ := GetContentFromBrackets_total msg 0 0 hsize
  obtain ⟨out2, e2, h2, hr2⟩ := GetContentFromBrackets_total msg (addSz e1 1) e1 hsize
  have hcur : addSz e2 1 ≤ msg.length := by
    simp only [npos, SIZE_MOD] at hsize hr1 hr2
    unfold addSz SIZE_MOD
    omega
  refine ⟨out1, e1, out2, e2, h1, h2, hcur, ?_⟩
  unfold ParseIncomingMessage
  simp [h1, h2, substr, Nat.not_lt.mpr hcur, bind, Except.bind, pure, Except.pure]

/-- Instance of C17 on the message `a[b`: the sender lookup leaves the end cursor at
`npos`, the body cursor wraps to 0 and the whole message is the content. -/
theorem body_cursor_in_range_witness :
    ∃ out1 e1 out2 e2,
      GetContentFromBrackets "a[b".toList 0 0 = .ok (out1, e1) ∧
      GetContentFromBrackets "a[b".toList (addSz e1 1) e1 = .ok (out2, e2) ∧
      addSz e2 1 ≤ "a[b".toList.length ∧
      ParseIncomingMessage "a[b".toList
        = .ok { PluginClassName := out1, Sender := GetSenderPri out2,
                MessageContent := ("a[b".toList.drop (addSz e2 1)).take INT_MAX } :=
  body_cursor_in_range "a[b".toList (by decide) (by decide)

/-- C18, as stated, fails: the message made of `2 ^ 31 + 1` characters `a` has no bracket
at its first two positions, and the content returned is not the message without its first
character (`2 ^ 31` characters) but only `INT_MAX = 2 ^ 31 - 1` characters of it. -/
theorem unframed_truncated_beyond_INT_MAX :
    ParseIncomingMessage ('a' :: List.replicate 2147483648 'a')
      = .ok { PluginClassName := [], Sender := 0,
              MessageContent := List.replicate 2147483647 'a' } ∧
    ParseIncomingMessage ('a' :: List.replicate 2147483648 'a')
      ≠ .ok { PluginClassName := [], Sender := 0,
              MessageContent := ('a' :: List.replicate 2147483648 'a').tail } := by
  have hhead : (List.replicate 2147483648 'a').head? ≠ some '[' := by
    rw [show (2147483648 : Nat) = 2147483647 + 1 from rfl, List.replicate_succ]
    decide
  have h := ParseIncomingMessage_unframed 'a' (List.replicate 2147483648 'a') (by decide) hhead
  have htake : List.take INT_MAX (List.replicate 2147483648 'a')
      = List.replicate 2147483647 'a' := by
    rw [List.take_replicate]
    rfl
  rw [htake] at h
  refine ⟨h, ?_⟩
  rw [h]
  intro hEq
  have hc := congrArg (fun d => d.MessageContent.length) (Except.ok.inj hEq)
  simp only [List.tail_cons, List.length_replicate] at hc
  omega

/-- C18, amended: for every non-empty message of at most `INT_MAX + 1` characters whose
first character is not `[` and whose second character (if present) is not `[`,
`ParseIncomingMessage` returns an empty `PluginClassName`, a null sender, and
`MessageContent` equal to the message with its first character removed. -/
theorem unframed_loses_first_character (msg : Str) (hne : msg ≠ [])
    (hfirst : msg.head? ≠ some '[') (hsecond : msg.tail.head? ≠ some '[')
    (hlen : msg.length ≤ INT_MAX + 1) :
    ParseIncomingMessage msg
      = .ok { PluginClassName := [], Sender := 0, MessageContent := msg.tail } := by
  cases msg with
  | nil => exact absurd rfl hne
  | cons c rest =>
    have hc : c ≠ '[' := by simpa using hfirst
    have h := ParseIncomingMessage_unframed c rest hc (by simpa using hsecond)
    have hl : rest.length ≤ INT_MAX := by
      simp only [List.length_cons] at hlen
      omega
    rw [List.take_of_length_le hl] at h
    exact h

/-- Instance of the amended C18: `hello` decodes to the content `ello`. -/
theorem unframed_loses_first_character_witness :
    ParseIncomingMessage "hello".toList
      = .ok { PluginClassName := [], Sender := 0, MessageContent := "ello".toList } :=
  unframed_loses_first_character "hello".toList (by decide) (by decide) (by decide)
    (by decide)

/-- C19, as stated, fails: the message made of `[` and `2 ^ 31` characters `a` begins with
`[` and has no `]`; the cursor does wrap to 0, but the content returned is cut to
`INT_MAX = 2 ^ 31 - 1` characters and is not the entire message. -/
theorem unclosed_truncated_beyond_INT_MAX :
    ']' ∉ '[' :: List.replicate 2147483648 'a' ∧
    ParseIncomingMessage ('[' :: List.replicate 2147483648 'a')
      = .ok { PluginClassName := [], Sender := 0,
              MessageContent := '[' :: List.replicate 2147483646 'a' } ∧
    ParseIncomingMessage ('[' :: List.replicate 2147483648 'a')
      ≠ .ok { PluginClassName := [], Sender := 0,
              MessageContent := '[' :: List.replicate 2147483648 'a' } := by
  have hno : ']' ∉ List.replicate 2147483648 'a' := by
    intro hmem
    exact absurd (List.eq_of_mem_replicate hmem) (by decide)
  have hno2 : ']' ∉ '[' :: List.replicate 2147483648 'a' := by
    intro hmem
    rcases List.mem_cons.mp hmem with h | h
    · exact absurd h (by decide)
    · exact hno h
  have h := ParseIncomingMessage_unclosed (List.replicate 2147483648 'a') hno
  have htake : List.take INT_MAX ('[' :: List.replicate 2147483648 'a')
      = '[' :: List.replicate 2147483646 'a' := by
    rw [show INT_MAX = 2147483646 + 1 from rfl, List.take_succ_cons, List.take_replicate]
    rfl
  rw [htake] at h
  refine ⟨hno2, h, ?_⟩
  rw [h]
  intro hEq
  have hc : '[' :: List.replicate 2147483646 'a' = '[' :: List.replicate 2147483648 'a' :=
    (ParsedMessageData.mk.inj (Except.ok.inj hEq)).2.2
  have hl := congrArg List.length (List.cons.inj hc).2
  rw [List.length_replicate, List.length_replicate] at hl
  exact absurd hl (by decide)

/-- C19, amended: for every message of at most `INT_MAX` characters that begins with `[`
and contains no `]`, the end position left by the field lookup is `npos = 2 ^ 64 - 1`, the
next cursor `npos + 1` wraps to 0, and `ParseIncomingMessage` returns an empty
`PluginClassName`, a null sender, and `MessageContent` equal to the entire message. -/
theorem unclosed_bracket_wraps_cursor (msg : Str) (hopen : msg.head? = some '[')
    (hclose : ']' ∉ msg) (hlen : msg.length ≤ INT_MAX) :
    GetContentFromBrackets msg 0 0 = .ok ([], npos) ∧
    npos = 2 ^ 64 - 1 ∧
    addSz npos 1 = 0 ∧
    ParseIncomingMessage msg
      = .ok { PluginClassName := [], Sender := 0, MessageContent := msg } := by
  cases msg with
  | nil => simp at hopen
  | cons c F =>
    have hc : c = '[' := by simpa using hopen
    subst hc
    have hF : ']' ∉ F := fun h => hclose (List.mem_cons_of_mem _ h)
    have h := ParseIncomingMessage_unclosed F hF
    rw [List.take_of_length_le hlen] at h
    exact ⟨GetContentFromBrackets_unclosed [] F 0 hF, by decide, by decide, h⟩

/-- Instance of the amended C19: `[abc` decodes to the content `[abc`. -/
theorem unclosed_bracket_wraps_cursor_witness :
    ParseIncomingMessage "[abc".toList
      = .ok { PluginClassName := [], Sender := 0, MessageContent := "[abc".toList } :=
  (unclosed_bracket_wraps_cursor "[abc".toList (by decide) (by decide) (by decide)).2.2.2

end NetcodeManager
